import Mathlib

set_option linter.unusedVariables false

/-!
Verification of the clashprobe_bot reduce-and-render pipeline.

The definitions below are a shallow embedding of the repository's Python
sources (`src/influx.py`, `src/reducer.py`, `src/state.py`,
`src/telegram_bot.py`).  Pure functions are translated directly; the
Telegram / InfluxDB / hashlib collaborators are modelled as explicit
oracles or as faithful pure implementations of their documented
behaviour.  Timestamps are modelled as natural numbers (only their order
matters to the code), Python `int` as `Int`, and Python dictionaries as
association lists or as functions to `Option`.
-/

namespace ClashProbe

/-- UTC wall-clock instant, the fields `strftime` reads. -/
structure DateTimeUTC where
  year : Nat
  month : Nat
  day : Nat
  hour : Nat
  minute : Nat
  second : Nat
deriving DecidableEq, Repr

/-- Python truthiness of an `Optional[str]`: `None` and `""` are falsy. -/
def optStrTruthy : Option String → Bool
  | none => false
  | some s => !s.isEmpty

/-- Model of `src/influx.py` `NodePoint`: latest alive / delay_ms values and their
timestamps for one node, plus an opportunistic protocol label. -/
structure NodePoint where
  alive : Option Bool
  latency_ms : Option Int
  alive_time : Option Nat
  latency_time : Option Nat
  protocol : Option String
deriving DecidableEq, Repr

/-- Model of `src/reducer.py` `NodeStatus`. -/
structure NodeStatus where
  name : String
  up : Bool
  degraded : Bool
  latency_ms : Option Int
  reason : Option String
  protocol : Option String
deriving DecidableEq, Repr

/-- Per-node body of `reduce_status` (`src/reducer.py`): classify one
`NodePoint` into a `NodeStatus`. -/
def reduceNode (name : String) (node : NodePoint) (latency_warn_ms : Option Int) :
    NodeStatus :=
  let alive := node.alive
  let has_any := node.alive_time.isSome || node.latency_time.isSome
  if has_any = false then
    { name := name, up := false, degraded := false, latency_ms := none,
      reason := some "no recent heartbeat", protocol := node.protocol }
  else if alive = some true then
    let degraded :=
      match latency_warn_ms, node.latency_ms with
      | some warn, some lat => decide (lat > warn)
      | _, _ => false
    { name := name, up := true, degraded := degraded, latency_ms := node.latency_ms,
      reason := none, protocol := node.protocol }
  else
    { name := name, up := false, degraded := false, latency_ms := none,
      reason := if alive = none then some "no recent heartbeat" else none,
      protocol := node.protocol }

/-- The function `reduce_status` (`src/reducer.py`): classify every node of the window.
The Python function iterates a dict keyed by name; we model the dict as an
association list.  The `minutes` parameter is accepted and unused, exactly
as in the source. -/
def reduce_status (data : List (String × NodePoint)) (minutes : Nat)
    (latency_warn_ms : Option Int) : List (String × NodeStatus) :=
  data.map (fun p => (p.1, reduceNode p.1 p.2 latency_warn_ms))

/-- The MarkdownV2 special characters escaped by
`telegram.helpers.escape_markdown(version=2)` (external collaborator,
modelled from its documented behaviour). -/
def escapeChars : String := "\\_*[]()~`>#+-=|\x7b\x7d.!"

/-- Model of `telegram.helpers.escape_markdown(text, version=2)`: prefix every
special character with a backslash. -/
def escape_markdown (text : String) : String :=
  String.mk (text.data.foldr
    (fun c acc => if escapeChars.data.contains c then '\\' :: c :: acc else c :: acc) [])

/-- Zero-pad a number to two digits (`strftime` field formatting). -/
def pad2 (n : Nat) : String :=
  if n < 10 then "0" ++ toString n else toString n

/-- Zero-pad a number to four digits (`strftime` `%Y`). -/
def pad4 (n : Nat) : String :=
  if n < 10 then "000" ++ toString n
  else if n < 100 then "00" ++ toString n
  else if n < 1000 then "0" ++ toString n
  else toString n

/-- The `now.strftime("%Y-%m-%d %H:%M:%SZ")` timestamp used by `format_markdown_v2`. -/
def strftimeZ (now : DateTimeUTC) : String :=
  pad4 now.year ++ "-" ++ pad2 now.month ++ "-" ++ pad2 now.day ++ " " ++
    pad2 now.hour ++ ":" ++ pad2 now.minute ++ ":" ++ pad2 now.second ++ "Z"

/-- The single-pass partition loop of `format_markdown_v2`: UP-not-degraded,
then UP-degraded, then DOWN, each bucket in traversal order. -/
def partStatus : List NodeStatus → List NodeStatus × List NodeStatus × List NodeStatus
  | [] => ([], [], [])
  | s :: rest =>
    let p := partStatus rest
    if s.up && !s.degraded then (s :: p.1, p.2.1, p.2.2)
    else if s.up && s.degraded then (p.1, s :: p.2.1, p.2.2)
    else (p.1, p.2.1, s :: p.2.2)

/-- The lowercase sort key `s.lower()` of a string, as the list of
code points (ASCII case folding, as in `Char.toLower`). -/
def lowerKey (s : String) : List Nat :=
  s.data.map (fun c => c.toLower.toNat)

/-- Lexicographic comparison of code-point lists: the string comparison
Python's `sort` performs on the lowercased keys. -/
def keyLe : List Nat → List Nat → Bool
  | [], _ => true
  | _ :: _, [] => false
  | a :: as, b :: bs =>
    if a < b then true
    else if b < a then false
    else keyLe as bs

/-- Lemma: `keyLe` is total. -/
theorem keyLe_total : ∀ as bs : List Nat, keyLe as bs = true ∨ keyLe bs as = true := by
  intro as
  induction as with
  | nil => intro bs; left; rfl
  | cons a as ih =>
    intro bs
    cases bs with
    | nil => right; rfl
    | cons b bs =>
      rcases Nat.lt_trichotomy a b with h | h | h
      · left; simp [keyLe, h]
      · subst h
        rcases ih bs with h' | h'
        · left; simpa [keyLe, Nat.lt_irrefl] using h'
        · right; simpa [keyLe, Nat.lt_irrefl] using h'
      · right; simp [keyLe, h]

/-- Lemma: `keyLe` is transitive. -/
theorem keyLe_trans : ∀ as bs cs : List Nat,
    keyLe as bs = true → keyLe bs cs = true → keyLe as cs = true := by
  intro as
  induction as with
  | nil => intro bs cs h1 h2; rfl
  | cons a as ih =>
    intro bs cs h1 h2
    cases bs with
    | nil => simp [keyLe] at h1
    | cons b bs =>
      cases cs with
      | nil => simp [keyLe] at h2
      | cons c cs =>
        simp only [keyLe] at h1 h2 ⊢
        split_ifs at h1 h2 ⊢ <;>
          first
          | rfl
          | omega
          | exact ih bs cs h1 h2

/-- The sort key `ns.name.lower()` comparison used by `format_markdown_v2`. -/
def nameLe (a b : NodeStatus) : Prop :=
  keyLe (lowerKey a.name) (lowerKey b.name) = true

instance : DecidableRel nameLe := fun a b =>
  inferInstanceAs (Decidable (_ = true))

/-- The per-node line builder `fmt` inside `format_markdown_v2`. -/
def fmtStatus (show_protocol : Bool) (ns : NodeStatus) : String :=
  let emoji := if ns.up then (if ns.degraded then "⚠️" else "✅") else "❌"
  let name := escape_markdown ns.name
  let proto :=
    if show_protocol && optStrTruthy ns.protocol then
      " \\(" ++ escape_markdown (ns.protocol.getD "") ++ "\\)"
    else ""
  let tail :=
    if ns.up then
      match ns.latency_ms with
      | some l => " — " ++ toString l ++ " ms"
      | none => ""
    else
      if optStrTruthy ns.reason then " — " ++ ns.reason.getD "" else ""
  emoji ++ " " ++ name ++ proto ++ escape_markdown tail

/-- The list of lines built by `format_markdown_v2` before joining. -/
def formatLines (title : String) (statuses : List (String × NodeStatus))
    (minutes : Nat) (show_protocol : Bool) (now : DateTimeUTC) : List String :=
  let vals := statuses.map Prod.snd
  let p := partStatus vals
  let ups := List.insertionSort nameLe p.1
  let degs := List.insertionSort nameLe p.2.1
  let downs := List.insertionSort nameLe p.2.2
  ("*" ++ escape_markdown (title ++ " (last " ++ toString minutes ++ "m)") ++ "*") ::
    "" ::
    ((ups ++ degs ++ downs).map (fmtStatus show_protocol) ++
      ["", "_" ++ escape_markdown ("Updated: " ++ strftimeZ now) ++ "_"])

/-- The function `format_markdown_v2` (`src/reducer.py`): compact, stable-ordered
MarkdownV2 message. -/
def format_markdown_v2 (title : String) (statuses : List (String × NodeStatus))
    (minutes : Nat) (show_protocol : Bool) (now : DateTimeUTC) : String :=
  String.intercalate "\n" (formatLines title statuses minutes show_protocol now)

/-- Model of `_format_cn_datetime` (`src/reducer.py`): Chinese-style datetime like
`2025/9/2 上午12:59:05`. -/
def formatCnDatetime (now : DateTimeUTC) : String :=
  let am := now.hour < 12
  let hour12 := now.hour % 12
  let hour12 := if hour12 = 0 then 12 else hour12
  let meridian := if am then "上午" else "下午"
  toString now.year ++ "/" ++ toString now.month ++ "/" ++ toString now.day ++ " " ++
    meridian ++ pad2 hour12 ++ ":" ++ pad2 now.minute ++ ":" ++ pad2 now.second

/-- Case-insensitive string comparison `key=lambda s: s.lower()` used to
sort alert names in `format_board_zh`. -/
def strLowerLe (a b : String) : Prop :=
  keyLe (lowerKey a) (lowerKey b) = true

instance : DecidableRel strLowerLe := fun a b =>
  inferInstanceAs (Decidable (_ = true))

/-- One alert section of `format_board_zh`: the sorted `❌ name` lines, or
the literal `无` marker when the section is empty. -/
def boardSection (alerts : List String) : List String :=
  if alerts.isEmpty then [escape_markdown "无"]
  else (List.insertionSort strLowerLe alerts).map
    (fun n => "❌ " ++ escape_markdown n)

/-- The list of lines built by `format_board_zh` before joining. -/
def boardLines (now : DateTimeUTC) (domestic_alerts foreign_alerts : List String) :
    List String :=
  escape_markdown "监视公告牌" ::
    escape_markdown ("更新日期：" ++ formatCnDatetime now) ::
    "" ::
    escape_markdown "国内当前报警节点如下：" ::
    (boardSection domestic_alerts ++
      ("" ::
        escape_markdown "国外当前报警节点如下：" ::
        (boardSection foreign_alerts ++
          [escape_markdown "如何解读：只要国内国外其中有一个报警即为节点不可用"])))

/-- The function `format_board_zh` (`src/reducer.py`): Chinese board layout in
MarkdownV2. -/
def format_board_zh (now : DateTimeUTC)
    (domestic_alerts foreign_alerts : List String) : String :=
  String.intercalate "\n" (boardLines now domestic_alerts foreign_alerts)

/-! ### SHA-256

`payload_hash` in `src/reducer.py` is `hashlib.sha256(text.encode("utf-8")).hexdigest()`.
`hashlib` is an external collaborator; it is modelled here by a faithful
pure implementation of FIPS 180-4 SHA-256 over the UTF-8 bytes of the
string, producing the lowercase hex digest. -/

/-- 2^32, the modulus of SHA-256 word arithmetic. -/
def M32 : Nat := 4294967296

/-- Addition modulo 2^32. -/
def add32 (x y : Nat) : Nat := (x + y) % M32

/-- Right rotation of a 32-bit word. -/
def rotr32 (n x : Nat) : Nat :=
  ((x >>> n) ||| ((x <<< (32 - n)) % M32)) % M32

/-- SHA-256 Σ₀. -/
def bSig0 (x : Nat) : Nat := rotr32 2 x ^^^ rotr32 13 x ^^^ rotr32 22 x

/-- SHA-256 Σ₁. -/
def bSig1 (x : Nat) : Nat := rotr32 6 x ^^^ rotr32 11 x ^^^ rotr32 25 x

/-- SHA-256 σ₀. -/
def sSig0 (x : Nat) : Nat := rotr32 7 x ^^^ rotr32 18 x ^^^ (x >>> 3)

/-- SHA-256 σ₁. -/
def sSig1 (x : Nat) : Nat := rotr32 17 x ^^^ rotr32 19 x ^^^ (x >>> 10)

/-- SHA-256 Ch. -/
def chFn (x y z : Nat) : Nat := (x &&& y) ^^^ ((x ^^^ 4294967295) &&& z)

/-- SHA-256 Maj. -/
def majFn (x y z : Nat) : Nat := (x &&& y) ^^^ (x &&& z) ^^^ (y &&& z)

/-- The eight 32-bit working registers / hash words of SHA-256. -/
structure SHA8 where
  a : Nat
  b : Nat
  c : Nat
  d : Nat
  e : Nat
  f : Nat
  g : Nat
  hh : Nat
deriving DecidableEq, Repr

/-- SHA-256 initial hash value (FIPS 180-4, written in decimal). -/
def shaH0 : SHA8 :=
  ⟨1779033703, 3144134277, 1013904242, 2773480762,
   1359893119, 2600822924, 528734635, 1541459225⟩

/-- SHA-256 round constants (FIPS 180-4, written in decimal). -/
def shaK : List Nat :=
  [1116352408, 1899447441, 3049323471, 3921009573, 961987163, 1508970993,
   2453635748, 2870763221, 3624381080, 310598401, 607225278, 1426881987,
   1925078388, 2162078206, 2614888103, 3248222580, 3835390401, 4022224774,
   264347078, 604807628, 770255983, 1249150122, 1555081692, 1996064986,
   2554220882, 2821834349, 2952996808, 3210313671, 3336571891, 3584528711,
   113926993, 338241895, 666307205, 773529912, 1294757372, 1396182291,
   1695183700, 1986661051, 2177026350, 2456956037, 2730485921, 2820302411,
   3259730800, 3345764771, 3516065817, 3600352804, 4094571909, 275423344,
   430227734, 506948616, 659060556, 883997877, 958139571, 1322822218,
   1537002063, 1747873779, 1955562222, 2024104815, 2227730452, 2361852424,
   2428436474, 2756734187, 3204031479, 3329325298]

/-- Extend a 16-word block with `fuel` further schedule words. -/
def extendW : Nat → List Nat → List Nat
  | 0, ws => ws
  | n + 1, ws =>
    let i := ws.length
    let w := add32 (add32 (sSig1 (ws.getD (i - 2) 0)) (ws.getD (i - 7) 0))
      (add32 (sSig0 (ws.getD (i - 15) 0)) (ws.getD (i - 16) 0))
    extendW n (ws ++ [w])

/-- One SHA-256 round. -/
def shaRound (st : SHA8) (kw : Nat × Nat) : SHA8 :=
  let t1 := add32 st.hh (add32 (bSig1 st.e)
    (add32 (chFn st.e st.f st.g) (add32 kw.1 kw.2)))
  let t2 := add32 (bSig0 st.a) (majFn st.a st.b st.c)
  ⟨add32 t1 t2, st.a, st.b, st.c, add32 st.d t1, st.e, st.f, st.g⟩

/-- Compress one 16-word block into the running hash. -/
def shaCompress (H : SHA8) (block : List Nat) : SHA8 :=
  let W := extendW 48 block
  let st := (shaK.zip W).foldl shaRound H
  ⟨add32 H.a st.a, add32 H.b st.b, add32 H.c st.c, add32 H.d st.d,
   add32 H.e st.e, add32 H.f st.f, add32 H.g st.g, add32 H.hh st.hh⟩

/-- Big-endian bytes of the 64-bit message length field. -/
def lenBytes (n : Nat) : List Nat :=
  (List.range 8).map (fun i => (n >>> ((7 - i) * 8)) % 256)

/-- SHA-256 message padding of a byte string. -/
def shaPad (msg : List Nat) : List Nat :=
  let len := msg.length
  let padZeros := (64 + 56 - (len + 1) % 64) % 64
  msg ++ 0x80 :: (List.replicate padZeros 0 ++ lenBytes (8 * len))

/-- Group bytes into big-endian 32-bit words. -/
def bytesToWords : List Nat → List Nat
  | a :: b :: c :: d :: rest =>
    ((a <<< 24) ||| (b <<< 16) ||| (c <<< 8) ||| d) :: bytesToWords rest
  | _ => []

/-- Split a word list into 16-word blocks (`fuel` bounds the recursion). -/
def chunk16 : Nat → List Nat → List (List Nat)
  | 0, _ => []
  | fuel + 1, ws =>
    match ws with
    | [] => []
    | _ => ws.take 16 :: chunk16 fuel (ws.drop 16)

/-- SHA-256 of a byte string, as the eight final hash words. -/
def sha256Words (msg : List Nat) : SHA8 :=
  let ws := bytesToWords (shaPad msg)
  (chunk16 ws.length ws).foldl shaCompress shaH0

/-- Lowercase hex digit for a nibble. -/
def hexDigitCh (n : Nat) : Char :=
  "0123456789abcdef".toList.getD n '0'

/-- The eight hex characters of one 32-bit word, most significant first. -/
def hexWordChars (n : Nat) : List Char :=
  (List.range 8).map (fun i => hexDigitCh ((n >>> ((7 - i) * 4)) % 16))

/-- Lowercase hex digest of SHA-256 of a byte string. -/
def sha256Hex (msg : List Nat) : String :=
  let d := sha256Words msg
  String.mk (List.flatten ([d.a, d.b, d.c, d.d, d.e, d.f, d.g, d.hh].map hexWordChars))

/-- UTF-8 encoding of one character. -/
def utf8Char (c : Char) : List Nat :=
  let n := c.toNat
  if n < 0x80 then [n]
  else if n < 0x800 then
    [0xC0 ||| (n >>> 6), 0x80 ||| (n &&& 0x3F)]
  else if n < 0x10000 then
    [0xE0 ||| (n >>> 12), 0x80 ||| ((n >>> 6) &&& 0x3F), 0x80 ||| (n &&& 0x3F)]
  else
    [0xF0 ||| (n >>> 18), 0x80 ||| ((n >>> 12) &&& 0x3F),
     0x80 ||| ((n >>> 6) &&& 0x3F), 0x80 ||| (n &&& 0x3F)]

/-- UTF-8 bytes of a string (`text.encode("utf-8")`). -/
def utf8Bytes (s : String) : List Nat :=
  List.flatten (s.data.map utf8Char)

/-- The function `payload_hash` (`src/reducer.py`):
`hashlib.sha256(text.encode("utf-8")).hexdigest()`. -/
def payload_hash (text : String) : String :=
  sha256Hex (utf8Bytes text)

/-! ### The Influx window reducer (`fetch_probe_window`, `src/influx.py`)

The InfluxDB client is an external collaborator; the query stream is
modelled as a list of raw records.  A record either yields its columns
(`ok`) or raises on attribute access (`raiseOnAccess`, hitting the
per-record `except` branch that logs a warning and skips).  The Python
`value` column may hold any type; `bool(value)` always succeeds while
`int(value)` may fail, so values are modelled by a small inductive. -/

/-- A Python value as seen in the `_value` column. -/
inductive PyValue where
  | vbool : Bool → PyValue
  | vint : Int → PyValue
  | vstr : String → PyValue
deriving DecidableEq, Repr

/-- Python `bool(value)` for a `PyValue` (total). -/
def pyBool : PyValue → Bool
  | .vbool b => b
  | .vint n => n ≠ 0
  | .vstr s => !s.isEmpty

/-- Decimal digit value of a character, if it is a digit. -/
def charDigit (c : Char) : Option Nat :=
  if 48 ≤ c.toNat ∧ c.toNat ≤ 57 then some (c.toNat - 48) else none

/-- Accumulate the decimal value of a digit string; `none` on the first
non-digit. -/
def digitsVal : List Char → Nat → Option Nat
  | [], a => some a
  | c :: rest, a =>
    match charDigit c with
    | some d => digitsVal rest (a * 10 + d)
    | none => none

/-- Python `int(str)`: optional sign followed by decimal digits; `none`
models raising `ValueError`. -/
def pyStrInt (s : String) : Option Int :=
  match s.data with
  | [] => none
  | '-' :: rest =>
    if rest.isEmpty then none
    else (digitsVal rest 0).map (fun n => -(n : Int))
  | '+' :: rest =>
    if rest.isEmpty then none
    else (digitsVal rest 0).map (fun n => (n : Int))
  | l => (digitsVal l 0).map (fun n => (n : Int))

/-- Python `int(value)` for a `PyValue`: `none` models raising. -/
def pyInt : PyValue → Option Int
  | .vbool b => some (if b then 1 else 0)
  | .vint n => some n
  | .vstr s => pyStrInt s

/-- One record of the streamed query result. -/
inductive ProbeRecord where
  | ok (name : Option String) (field : String) (value : PyValue)
      (time : Option Nat) (protocol : Option String)
  | raiseOnAccess (msg : String)
deriving DecidableEq, Repr

/-- The replacement test
`node.x_time is None or (t and node.x_time and t > node.x_time)`
(datetimes are always truthy in Python, `None` is falsy). -/
def shouldReplace (t old : Option Nat) : Bool :=
  match old with
  | none => true
  | some o =>
    match t with
    | none => false
    | some tv => tv > o

/-- The running state of the reduction loop: the `result` dict (modelled
as a function to `Option`) and the number of skipped-record warnings
logged so far. -/
structure FetchState where
  result : String → Option NodePoint
  warnings : Nat

/-- The empty initial state of `fetch_probe_window`. -/
def emptyFetch : FetchState := ⟨fun _ => none, 0⟩

/-- The loop body of `fetch_probe_window` for one streamed record. -/
def processRecord (st : FetchState) (r : ProbeRecord) : FetchState :=
  match r with
  | .raiseOnAccess _ => { st with warnings := st.warnings + 1 }
  | .ok name field value t protocol =>
    if optStrTruthy name = false then st
    else
      let nm := name.getD ""
      let node0 := (st.result nm).getD
        { alive := none, latency_ms := none, alive_time := none,
          latency_time := none, protocol := protocol }
      let node :=
        if field = "alive" then
          if shouldReplace t node0.alive_time then
            { node0 with
              alive := some (pyBool value)
              alive_time := t
              protocol := if optStrTruthy protocol then protocol else node0.protocol }
          else node0
        else if field = "delay_ms" then
          if shouldReplace t node0.latency_time then
            { node0 with
              latency_ms := pyInt value
              latency_time := t
              protocol := if optStrTruthy protocol then protocol else node0.protocol }
          else node0
        else node0
      { st with result := fun k => if k = nm then some node else st.result k }

/-- The function `fetch_probe_window` (`src/influx.py`): reduce the streamed records of
one query window into the per-node `NodePoint` map. -/
def fetch_probe_window (records : List ProbeRecord) : FetchState :=
  records.foldl processRecord emptyFetch

/-! ### The publisher cycle (`update_cycle`, `src/telegram_bot.py`)

The Telegram client, the InfluxDB query and the state file are external
collaborators, modelled as oracles passed to `update_cycle`: `fetchO`
maps a `probe_node` filter to a query result or a raised error, `diskRef`
is what `load_message_ref()` would return, and `editO` tells whether the
edit call of a given attempt number succeeds or raises. -/

/-- Model of `src/state.py` `MessageRef`. -/
structure MessageRef where
  chat_id : Int
  message_id : Int
deriving DecidableEq, Repr

/-- Model of `src/telegram_bot.py` `BotState`. -/
structure BotState where
  msg_ref : Option MessageRef
  last_hash : Option String
deriving DecidableEq, Repr

/-- Model of `src/config.py` `Config`, restricted to the fields `update_cycle`
reads.  `status_template`, `domestic_probe_node`, `foreign_probe_node` and
`include_degraded_as_alert` are read by `src/telegram_bot.py` but absent
from the `Config` dataclass in `src/config.py`.
Modelled from the spec: the configuration surface of §6 lists "report
template selection" and the "degraded-counts-as-alert toggle", and §4.3
describes the two vantage probe groups of the board template. -/
structure Config where
  time_range_minutes : Nat
  latency_warn_ms : Option Int
  telegram_chat_id : Option Int
  telegram_message_id : Option Int
  status_title : String
  show_protocol : Bool
  status_template : String
  domestic_probe_node : Option String
  foreign_probe_node : Option String
  include_degraded_as_alert : Bool

/-- Log events of one cycle, in order of emission. -/
inductive LogEvent where
  | noTarget
  | noChange
  | editOk
  | editWarn
  | editError
  | cycleError
deriving DecidableEq, Repr

/-- Everything one `update_cycle` run produces: the new `BotState`, the
edit calls issued (target and text), the backoff sleeps performed (in
units of the fixed 1.0 s base delay, i.e. the attempt index), how often
`load_message_ref` was called, the log events, and whether an edit
succeeded. -/
structure CycleResult where
  state : BotState
  edits : List (MessageRef × String)
  sleeps : List Nat
  diskLoads : Nat
  logs : List LogEvent
  edited : Bool
deriving Repr

/-- The `is_alert` predicate plus the alert list comprehension of the `board_zh` branch
of `update_cycle`: the names of the statuses with
`(not ns.up) or (cfg.include_degraded_as_alert and ns.degraded)`. -/
def alertsOf (include_degraded_as_alert : Bool)
    (statuses : List (String × NodeStatus)) : List String :=
  (((statuses.map Prod.snd).filter
    (fun s => !s.up || (include_degraded_as_alert && s.degraded))).map
      NodeStatus.name)

/-- The fetch → reduce → format part of `update_cycle`: produce the
rendered text, or the caught exception of a failed query. -/
def computeText (cfg : Config)
    (fetchO : Option String → Except String (List (String × NodePoint)))
    (now : DateTimeUTC) : Except String String :=
  if cfg.status_template = "board_zh" then
    match fetchO cfg.domestic_probe_node with
    | .error e => .error e
    | .ok domData =>
      let domStatus := reduce_status domData cfg.time_range_minutes cfg.latency_warn_ms
      match (if optStrTruthy cfg.foreign_probe_node then
          fetchO cfg.foreign_probe_node else .ok []) with
      | .error e => .error e
      | .ok forData =>
        let forStatus :=
          if optStrTruthy cfg.foreign_probe_node then
            reduce_status forData cfg.time_range_minutes cfg.latency_warn_ms
          else []
        .ok (format_board_zh now
          (alertsOf cfg.include_degraded_as_alert domStatus)
          (alertsOf cfg.include_degraded_as_alert forStatus))
  else
    match fetchO none with
    | .error e => .error e
    | .ok data =>
      .ok (format_markdown_v2 cfg.status_title
        (reduce_status data cfg.time_range_minutes cfg.latency_warn_ms)
        cfg.time_range_minutes cfg.show_protocol now)

/-- The explicit configuration override
`if cfg.telegram_chat_id and cfg.telegram_message_id` (Python truthiness:
`None` and `0` are falsy). -/
def overrideRef (cfg : Config) : Option MessageRef :=
  match cfg.telegram_chat_id, cfg.telegram_message_id with
  | some c, some m => if c ≠ 0 ∧ m ≠ 0 then some ⟨c, m⟩ else none
  | _, _ => none

/-- The `for attempt in range(1, tries + 1)` edit-retry loop, over the
remaining attempt numbers.  Returns (success, edit calls, sleeps, logs). -/
def editAttempts (editO : Nat → Bool) (r : MessageRef) (text : String) :
    List Nat → Bool × List (MessageRef × String) × List Nat × List LogEvent
  | [] => (false, [], [], [])
  | a :: rest =>
    if editO a then (true, [(r, text)], [], [.editOk])
    else if rest.isEmpty then (false, [(r, text)], [], [.editError])
    else
      let p := editAttempts editO r text rest
      (p.1, (r, text) :: p.2.1, a :: p.2.2.1, .editWarn :: p.2.2.2)

/-- The change-suppression check plus the retry loop of `update_cycle`,
run once a target `MessageRef` has been resolved. -/
def publishPhase (st : BotState) (r : MessageRef) (text h : String)
    (editO : Nat → Bool) (diskLoads : Nat) : CycleResult :=
  if st.last_hash = some h then
    ⟨st, [], [], diskLoads, [.noChange], false⟩
  else
    let p := editAttempts editO r text [1, 2, 3]
    ⟨{ st with last_hash := if p.1 then some h else st.last_hash },
      p.2.1, p.2.2.1, diskLoads, p.2.2.2, p.1⟩

/-- The function `update_cycle` (`src/telegram_bot.py`): one fetch → reduce → format →
edit-if-changed cycle.  The outer `try`/`except` catches a failed query
(`computeText` error) and logs it; everything after that point is total. -/
def update_cycle (cfg : Config) (st : BotState)
    (fetchO : Option String → Except String (List (String × NodePoint)))
    (diskRef : Option MessageRef) (editO : Nat → Bool) (now : DateTimeUTC) :
    CycleResult :=
  match computeText cfg fetchO now with
  | .error _ => ⟨st, [], [], 0, [.cycleError], false⟩
  | .ok text =>
    let h := payload_hash text
    let ref1 :=
      match overrideRef cfg with
      | some r => some r
      | none => st.msg_ref
    match ref1 with
    | some r => publishPhase st r text h editO 0
    | none =>
      let st1 := { st with msg_ref := diskRef }
      match diskRef with
      | none => ⟨st1, [], [], 1, [.noTarget], false⟩
      | some r => publishPhase st1 r text h editO 1

/-! ## Helper lemmas -/

/-- Lemma: `reduceNode` always copies the dictionary key into the `name` field. -/
theorem reduceNode_name (n : String) (node : NodePoint) (w : Option Int) :
    (reduceNode n node w).name = n := by
  unfold reduceNode
  dsimp only
  split
  · rfl
  · split
    · rfl
    · rfl

/-! ## Claim theorems -/

/-- C1: `reduce_status` implements the three ordered rules of §4.2 for
every per-node window record: (1) no liveness timestamp and no latency
timestamp → DOWN with reason "no recent heartbeat"; (2) otherwise, a
liveness value present and true → UP, degraded exactly when a latency
warning threshold is configured and a latency value is present and
strictly exceeds it, with the latency value carried through even when not
degraded; (3) otherwise DOWN, with reason "no recent heartbeat" exactly
when the liveness value is absent, and reason unset when liveness was
sampled false. -/
theorem reduce_status_three_rules (name : String) (node : NodePoint)
    (warn : Option Int) :
    (node.alive_time = none ∧ node.latency_time = none →
      reduceNode name node warn =
        { name := name, up := false, degraded := false, latency_ms := none,
          reason := some "no recent heartbeat", protocol := node.protocol }) ∧
    ((node.alive_time.isSome ∨ node.latency_time.isSome) →
      node.alive = some true →
      (reduceNode name node warn).up = true ∧
      (reduceNode name node warn).latency_ms = node.latency_ms ∧
      (reduceNode name node warn).reason = none ∧
      ((reduceNode name node warn).degraded = true ↔
        ∃ w l, warn = some w ∧ node.latency_ms = some l ∧ w < l)) ∧
    ((node.alive_time.isSome ∨ node.latency_time.isSome) →
      node.alive ≠ some true →
      (reduceNode name node warn).up = false ∧
      (reduceNode name node warn).degraded = false ∧
      (reduceNode name node warn).latency_ms = none ∧
      (reduceNode name node warn).reason =
        (if node.alive = none then some "no recent heartbeat" else none)) := by
  refine ⟨?_, ?_, ?_⟩
  · rintro ⟨h1, h2⟩
    unfold reduceNode
    simp [h1, h2]
  · intro hsome halive
    have hny : (node.alive_time.isSome || node.latency_time.isSome) = true := by
      rcases hsome with h | h <;> simp [h]
    unfold reduceNode
    simp only [hny, halive]
    refine ⟨by simp, by simp, by simp, ?_⟩
    constructor
    · intro hdeg
      rcases hw : warn with _ | w <;> rcases hl : node.latency_ms with _ | l <;>
        simp [hw, hl] at hdeg ⊢
      · exact hdeg
    · rintro ⟨w, l, hw, hl, hlt⟩
      simp [hw, hl, hlt]
  · intro hsome halive
    have hny : (node.alive_time.isSome || node.latency_time.isSome) = true := by
      rcases hsome with h | h <;> simp [h]
    have halive' : (node.alive = some true) = False := by
      simp [halive]
    unfold reduceNode
    simp [hny, halive']

/-- Witness for `reduce_status_three_rules`: rule 1 on an all-empty
window, rule 2 on a degraded node, rule 3 on an explicit-false node. -/
theorem reduce_status_three_rules_witness :
    reduceNode "n" ⟨none, none, none, none, none⟩ (some 5) =
      { name := "n", up := false, degraded := false, latency_ms := none,
        reason := some "no recent heartbeat", protocol := none } ∧
    (reduceNode "m" ⟨some true, some 9, some 3, some 3, none⟩ (some 5)).degraded
      = true ∧
    (reduceNode "k" ⟨some false, none, some 3, none, none⟩ (some 5)).reason
      = none := by
  refine ⟨(reduce_status_three_rules "n" ⟨none, none, none, none, none⟩
      (some 5)).1 ⟨rfl, rfl⟩, ?_, ?_⟩
  · exact ((reduce_status_three_rules "m" ⟨some true, some 9, some 3, some 3, none⟩
      (some 5)).2.1 (Or.inl rfl) rfl).2.2.2.mpr ⟨5, 9, rfl, rfl, by norm_num⟩
  · have h := (reduce_status_three_rules "k" ⟨some false, none, some 3, none, none⟩
      (some 5)).2.2 (Or.inl rfl) (by simp)
    simpa using h.2.2.2

/-- C10: `reduce_status` preserves the key set exactly: the output keys
equal the input keys in order, each input node yields exactly one
`NodeStatus`, and every output status's `name` field equals its key. -/
theorem reduce_status_preserves_keys (data : List (String × NodePoint))
    (minutes : Nat) (warn : Option Int) :
    ((reduce_status data minutes warn).map Prod.fst = data.map Prod.fst) ∧
    (reduce_status data minutes warn).length = data.length ∧
    ∀ p ∈ reduce_status data minutes warn, p.2.name = p.1 := by
  refine ⟨?_, ?_, ?_⟩
  · simp [reduce_status, List.map_map, Function.comp_def]
  · simp [reduce_status]
  · intro p hp
    simp only [reduce_status, List.mem_map] at hp
    obtain ⟨q, _, rfl⟩ := hp
    exact reduceNode_name q.1 q.2 warn

/-- Witness for `reduce_status_preserves_keys`: the membership clause on a
concrete singleton input. -/
theorem reduce_status_preserves_keys_witness :
    (("A" : String),
      reduceNode "A" ⟨some true, none, some 1, none, none⟩ none).2.name = "A" :=
  (reduce_status_preserves_keys [("A", ⟨some true, none, some 1, none, none⟩)]
    5 none).2.2 _ (by simp [reduce_status])

/-- C2 counterexample: two liveness samples for node `A` with EQUAL
timestamps.  The claim's "last one wins" tie-break predicts the second
sample's value `false`; the code's strict `>` comparison keeps the first
sample's value `true`. -/
theorem fetch_tie_first_wins_counterexample :
    ((fetch_probe_window
        [.ok (some "A") "alive" (.vbool true) (some 5) none,
         .ok (some "A") "alive" (.vbool false) (some 5) none]).result "A").map
      NodePoint.alive = some (some true) ∧
    (some (some true) : Option (Option Bool)) ≠ some (some false) := by
  constructor
  · rfl
  · decide

/-- C8 counterexample: a `delay_ms` sample whose value cannot be parsed as
an integer is NOT dropped without effect — it overwrites the previously
retained good latency value with `none` and advances the latency
timestamp, so the reduced output differs from the output without the
malformed sample. -/
theorem malformed_sample_effect_counterexample :
    (fetch_probe_window
        [.ok (some "A") "delay_ms" (.vint 100) (some 1) none,
         .ok (some "A") "delay_ms" (.vstr "garbage") (some 2) none]).result "A" =
      some { alive := none, latency_ms := none, alive_time := none,
             latency_time := some 2, protocol := none } ∧
    (fetch_probe_window
        [.ok (some "A") "delay_ms" (.vint 100) (some 1) none]).result "A" =
      some { alive := none, latency_ms := some 100, alive_time := none,
             latency_time := some 1, protocol := none } ∧
    (fetch_probe_window
        [.ok (some "A") "delay_ms" (.vint 100) (some 1) none,
         .ok (some "A") "delay_ms" (.vstr "garbage") (some 2) none]).result "A" ≠
      (fetch_probe_window
        [.ok (some "A") "delay_ms" (.vint 100) (some 1) none]).result "A" := by
  refine ⟨by rfl, by rfl, by decide⟩

/-- Whether a record raises on attribute access. -/
def isRaise : ProbeRecord → Bool
  | .raiseOnAccess _ => true
  | .ok _ _ _ _ _ => false

/-- One loop step adds a warning exactly for a raising record. -/
theorem processRecord_warnings (st : FetchState) (r : ProbeRecord) :
    (processRecord st r).warnings =
      st.warnings + (if isRaise r then 1 else 0) := by
  cases r with
  | raiseOnAccess m => simp [processRecord, isRaise]
  | ok name field value t protocol =>
    simp only [processRecord, isRaise]
    split
    · simp
    · simp

/-- One loop step's `result` only depends on the incoming `result`. -/
theorem processRecord_result_congr {st st' : FetchState} (r : ProbeRecord)
    (h : st.result = st'.result) :
    (processRecord st r).result = (processRecord st' r).result := by
  cases r with
  | raiseOnAccess m => simpa [processRecord] using h
  | ok name field value t protocol =>
    simp only [processRecord]
    split
    · exact h
    · simp [h]

/-- The fold's `result` only depends on the incoming `result`. -/
theorem foldl_result_congr (rs : List ProbeRecord) :
    ∀ {st st' : FetchState}, st.result = st'.result →
      (rs.foldl processRecord st).result = (rs.foldl processRecord st').result := by
  induction rs with
  | nil => intro st st' h; simpa using h
  | cons r rest ih =>
    intro st st' h
    exact ih (processRecord_result_congr r h)

/-- The fold's warning count is the incoming count plus the number of
raising records. -/
theorem foldl_warnings (rs : List ProbeRecord) :
    ∀ st : FetchState, (rs.foldl processRecord st).warnings =
      st.warnings + (rs.countP isRaise) := by
  induction rs with
  | nil => intro st; simp
  | cons r rest ih =>
    intro st
    rw [List.foldl_cons, ih, processRecord_warnings, List.countP_cons]
    rcases r <;> (simp [isRaise]; try omega)

/-- C8 (amended): a raising record is skipped with a logged warning and
has no effect on the reduced map; a sample with a missing (or empty) node
name is skipped silently with no effect; in both cases reduction of the
rest of the window proceeds unchanged and the cycle never aborts.  A
`delay_ms` sample whose value cannot be parsed as an integer is NOT
dropped, however: when its timestamp wins it is retained with the latency
value cleared to `none` and the latency timestamp advanced. -/
theorem malformed_sample_policy :
    (∀ (st : FetchState) (m : String),
      processRecord st (.raiseOnAccess m) =
        { st with warnings := st.warnings + 1 }) ∧
    (∀ (st : FetchState) (f : String) (v : PyValue) (t : Option Nat)
      (p : Option String),
      processRecord st (.ok none f v t p) = st ∧
      processRecord st (.ok (some "") f v t p) = st) ∧
    (∀ (rs1 rs2 : List ProbeRecord) (m : String),
      (fetch_probe_window (rs1 ++ .raiseOnAccess m :: rs2)).result =
        (fetch_probe_window (rs1 ++ rs2)).result ∧
      (fetch_probe_window (rs1 ++ .raiseOnAccess m :: rs2)).warnings =
        (fetch_probe_window (rs1 ++ rs2)).warnings + 1) ∧
    (∀ (st : FetchState) (nm : String) (v : PyValue) (t : Option Nat)
      (p : Option String),
      nm ≠ "" → pyInt v = none →
      shouldReplace t (((st.result nm).getD
        { alive := none, latency_ms := none, alive_time := none,
          latency_time := none, protocol := p }).latency_time) = true →
      ∃ nd, (processRecord st (.ok (some nm) "delay_ms" v t p)).result nm =
          some nd ∧ nd.latency_ms = none ∧ nd.latency_time = t) := by
  refine ⟨fun st m => rfl, fun st f v t p => ⟨rfl, rfl⟩, ?_, ?_⟩
  · intro rs1 rs2 m
    constructor
    · rw [fetch_probe_window, fetch_probe_window, List.foldl_append,
        List.foldl_append, List.foldl_cons]
      exact foldl_result_congr rs2 rfl
    · rw [fetch_probe_window, fetch_probe_window, foldl_warnings, foldl_warnings]
      simp [List.countP_append, List.countP_cons, isRaise]
      omega
  · intro st nm v t p hnm hv hrep
    have htr : optStrTruthy (some nm) = true := by
      have : nm.isEmpty = false := by
        rw [Bool.eq_false_iff]
        intro hc
        exact hnm ((String.isEmpty_iff nm).mp hc)
      simp [optStrTruthy, this]
    have heq : (processRecord st (.ok (some nm) "delay_ms" v t p)).result nm
        = some { ((st.result nm).getD
            { alive := none, latency_ms := none, alive_time := none,
              latency_time := none, protocol := p }) with
          latency_ms := pyInt v
          latency_time := t
          protocol := if optStrTruthy p = true then p
            else ((st.result nm).getD
              { alive := none, latency_ms := none, alive_time := none,
                latency_time := none, protocol := p }).protocol } := by
      simp [processRecord, htr, hrep]
    rw [hv] at heq
    exact ⟨_, heq, rfl, rfl⟩

/-- Witness for `malformed_sample_policy`: the unparseable-delay clause at
a concrete state and record. -/
theorem malformed_sample_policy_witness :
    ∃ nd, (processRecord emptyFetch
        (.ok (some "A") "delay_ms" (.vstr "x") (some 3) none)).result "A" =
      some nd ∧ nd.latency_ms = none ∧ nd.latency_time = some 3 :=
  malformed_sample_policy.2.2.2 emptyFetch "A" (.vstr "x") (some 3) none
    (by decide) (by rfl) (by rfl)

instance : IsTotal NodeStatus nameLe :=
  ⟨fun a b => keyLe_total (lowerKey a.name) (lowerKey b.name)⟩

instance : IsTrans NodeStatus nameLe :=
  ⟨fun a b c h1 h2 => keyLe_trans (lowerKey a.name) (lowerKey b.name)
    (lowerKey c.name) h1 h2⟩

instance : IsTotal String strLowerLe :=
  ⟨fun a b => keyLe_total (lowerKey a) (lowerKey b)⟩

instance : IsTrans String strLowerLe :=
  ⟨fun a b c h1 h2 => keyLe_trans (lowerKey a) (lowerKey b) (lowerKey c) h1 h2⟩

/-- The single-pass partition of `format_markdown_v2` equals the three
filters UP-not-degraded / UP-degraded / DOWN. -/
theorem partStatus_eq_filters (l : List NodeStatus) :
    partStatus l = (l.filter (fun s => s.up && !s.degraded),
      l.filter (fun s => s.up && s.degraded),
      l.filter (fun s => !s.up)) := by
  induction l with
  | nil => rfl
  | cons s rest ih =>
    simp only [partStatus, ih, List.filter_cons]
    by_cases h1 : s.up <;> by_cases h2 : s.degraded <;> simp [h1, h2]

/-- First index at which `pat` occurs in the character list, scanning from
offset `i`. -/
def findSubAux (pat : List Char) : List Char → Nat → Option Nat
  | [], i => if pat.isEmpty then some i else none
  | c :: rest, i =>
    if pat.isPrefixOf (c :: rest) then some i else findSubAux pat rest (i + 1)

/-- Python `str.find(pat)`-style first-occurrence index. -/
def strFind (hay pat : String) : Option Nat :=
  findSubAux pat.data hay.data 0

/-- Do the three fragments occur in `t`, in this relative order? -/
def ordered3 (t a b c : String) : Bool :=
  match strFind t a, strFind t b, strFind t c with
  | some i, some j, some k => decide (i < j) && decide (j < k)
  | _, _, _ => false

/-- The UP-not-degraded bucket in display order, as the spec words it. -/
def specUpBucket (statuses : List (String × NodeStatus)) : List NodeStatus :=
  List.insertionSort nameLe
    ((statuses.map Prod.snd).filter (fun s => s.up && !s.degraded))

/-- The UP-degraded bucket in display order, as the spec words it. -/
def specDegBucket (statuses : List (String × NodeStatus)) : List NodeStatus :=
  List.insertionSort nameLe
    ((statuses.map Prod.snd).filter (fun s => s.up && s.degraded))

/-- The DOWN bucket in display order, as the spec words it. -/
def specDownBucket (statuses : List (String × NodeStatus)) : List NodeStatus :=
  List.insertionSort nameLe ((statuses.map Prod.snd).filter (fun s => !s.up))

/-- The concrete snapshot of the C3 example: B up with latency 50, A down,
C up with latency 500, threshold 200. -/
def c3snapshot : List (String × NodeStatus) :=
  reduce_status
    [("B", { alive := some true, latency_ms := some 50, alive_time := some 1,
             latency_time := some 1, protocol := none }),
     ("A", { alive := some false, latency_ms := none, alive_time := some 1,
             latency_time := none, protocol := none }),
     ("C", { alive := some true, latency_ms := some 500, alive_time := some 1,
             latency_time := some 1, protocol := none })]
    5 (some 200)

/-- C3: `format_markdown_v2` renders the three buckets UP-not-degraded,
UP-degraded, DOWN in that display order, each bucket sorted
case-insensitively by name (a permutation of the corresponding filter of
the snapshot); and on the concrete snapshot {B: up 50, A: down, C: up 500}
with threshold 200 the fragments `✅ B`, `⚠️ C`, `❌ A` occur in that
relative order. -/
theorem format_markdown_v2_bucket_order :
    (∀ (title : String) (statuses : List (String × NodeStatus)) (minutes : Nat)
      (show_protocol : Bool) (now : DateTimeUTC),
      format_markdown_v2 title statuses minutes show_protocol now =
        String.intercalate "\n"
          (("*" ++ escape_markdown (title ++ " (last " ++ toString minutes ++ "m)")
              ++ "*") ::
            "" ::
            ((specUpBucket statuses ++ specDegBucket statuses ++
                specDownBucket statuses).map (fmtStatus show_protocol) ++
              ["", "_" ++ escape_markdown ("Updated: " ++ strftimeZ now) ++ "_"])) ∧
      List.Sorted nameLe (specUpBucket statuses) ∧
      List.Sorted nameLe (specDegBucket statuses) ∧
      List.Sorted nameLe (specDownBucket statuses) ∧
      (specUpBucket statuses).Perm
        ((statuses.map Prod.snd).filter (fun s => s.up && !s.degraded)) ∧
      (specDegBucket statuses).Perm
        ((statuses.map Prod.snd).filter (fun s => s.up && s.degraded)) ∧
      (specDownBucket statuses).Perm
        ((statuses.map Prod.snd).filter (fun s => !s.up))) ∧
    ordered3
      (format_markdown_v2 "Network Status" c3snapshot 5 true ⟨2025, 1, 2, 3, 4, 5⟩)
      "✅ B" "⚠️ C" "❌ A" = true := by
  constructor
  · intro title statuses minutes show_protocol now
    refine ⟨?_, List.sorted_insertionSort nameLe _, List.sorted_insertionSort nameLe _,
      List.sorted_insertionSort nameLe _, List.perm_insertionSort nameLe _,
      List.perm_insertionSort nameLe _, List.perm_insertionSort nameLe _⟩
    unfold format_markdown_v2 formatLines specUpBucket specDegBucket specDownBucket
    simp only [partStatus_eq_filters]
  · decide

/-- Lowercase hex digits. -/
def isHexDigitCh (c : Char) : Bool := "0123456789abcdef".data.contains c

/-- Each SHA-256 word renders as exactly eight characters. -/
theorem hexWordChars_length (n : Nat) : (hexWordChars n).length = 8 := by
  simp [hexWordChars]

/-- Applying `hexDigitCh` to a nibble yields a hex digit. -/
theorem hexDigitCh_isHex : ∀ m, m < 16 → isHexDigitCh (hexDigitCh m) = true := by
  decide

/-- The digest length is always 64 characters. -/
theorem payload_hash_length (s : String) : (payload_hash s).length = 64 := by
  show (List.flatten (List.map hexWordChars _)).length = 64
  simp [List.length_flatten, hexWordChars_length]

/-- Every digest character is a lowercase hex digit. -/
theorem payload_hash_hex (s : String) :
    (payload_hash s).data.all isHexDigitCh = true := by
  rw [List.all_eq_true]
  intro c hc
  replace hc : c ∈ List.flatten
      (List.map hexWordChars
        [(sha256Words (utf8Bytes s)).a, (sha256Words (utf8Bytes s)).b,
         (sha256Words (utf8Bytes s)).c, (sha256Words (utf8Bytes s)).d,
         (sha256Words (utf8Bytes s)).e, (sha256Words (utf8Bytes s)).f,
         (sha256Words (utf8Bytes s)).g, (sha256Words (utf8Bytes s)).hh]) := hc
  rw [List.mem_flatten] at hc
  obtain ⟨chunk, hchunk, hcmem⟩ := hc
  rw [List.mem_map] at hchunk
  obtain ⟨w, _, rfl⟩ := hchunk
  rw [hexWordChars, List.mem_map] at hcmem
  obtain ⟨i, _, rfl⟩ := hcmem
  exact hexDigitCh_isHex _ (Nat.mod_lt _ (by norm_num))

/-- If the stored hash matches, `publishPhase` issues no edit. -/
theorem publishPhase_edits_nil {st : BotState} {r : MessageRef} {text h : String}
    {editO : Nat → Bool} {d : Nat} (hh : st.last_hash = some h) :
    (publishPhase st r text h editO d).edits = [] := by
  simp [publishPhase, hh]

/-- If the rendered text hashes to the stored fingerprint, the cycle
issues no edit call. -/
theorem update_cycle_edits_nil {cfg : Config} {st : BotState}
    {fetchO : Option String → Except String (List (String × NodePoint))}
    {diskRef : Option MessageRef} {editO : Nat → Bool} {now : DateTimeUTC}
    {text : String} (hok : computeText cfg fetchO now = .ok text)
    (hh : st.last_hash = some (payload_hash text)) :
    (update_cycle cfg st fetchO diskRef editO now).edits = [] := by
  unfold update_cycle
  rw [hok]
  dsimp only
  cases hover : (match overrideRef cfg with
    | some r => some r
    | none => st.msg_ref) with
  | some r => exact publishPhase_edits_nil hh
  | none =>
    cases diskRef with
    | none => rfl
    | some r => exact publishPhase_edits_nil hh

/-- A successful edit stores the new fingerprint. -/
theorem publishPhase_edited_hash {st : BotState} {r : MessageRef} {text h : String}
    {editO : Nat → Bool} {d : Nat}
    (he : (publishPhase st r text h editO d).edited = true) :
    (publishPhase st r text h editO d).state.last_hash = some h := by
  by_cases hc : st.last_hash = some h
  · simp [publishPhase, hc] at he
  · simp only [publishPhase, if_neg hc] at he ⊢
    simp [he]

/-- A cycle that performed an edit stores the fingerprint of the text it
rendered. -/
theorem update_cycle_edited_hash {cfg : Config} {st : BotState}
    {fetchO : Option String → Except String (List (String × NodePoint))}
    {diskRef : Option MessageRef} {editO : Nat → Bool} {now : DateTimeUTC}
    {text : String} (hok : computeText cfg fetchO now = .ok text)
    (he : (update_cycle cfg st fetchO diskRef editO now).edited = true) :
    (update_cycle cfg st fetchO diskRef editO now).state.last_hash =
      some (payload_hash text) := by
  unfold update_cycle at he ⊢
  rw [hok] at he ⊢
  dsimp only at he ⊢
  generalize hover : (match overrideRef cfg with
    | some r => some r
    | none => st.msg_ref) = ref1 at he ⊢
  cases ref1 with
  | some r => exact publishPhase_edited_hash he
  | none =>
    cases diskRef with
    | none => simp at he
    | some r => exact publishPhase_edited_hash he

/-- C4: the change detector computes a fixed-length (64 hex characters)
SHA-256 fingerprint of the rendered text; whenever the fingerprint of the
rendered text equals the stored fingerprint, the cycle ends without
invoking the edit primitive; and two consecutive cycles rendering the same
text never call the edit primitive a second time after a successful
publish. -/
theorem change_detector_suppression :
    (∀ s : String, (payload_hash s).length = 64 ∧
      (payload_hash s).data.all isHexDigitCh = true) ∧
    (∀ (cfg : Config) (st : BotState)
      (fetchO : Option String → Except String (List (String × NodePoint)))
      (diskRef : Option MessageRef) (editO : Nat → Bool) (now : DateTimeUTC)
      (text : String),
      computeText cfg fetchO now = .ok text →
      st.last_hash = some (payload_hash text) →
      (update_cycle cfg st fetchO diskRef editO now).edits = []) ∧
    (∀ (cfg : Config) (st : BotState)
      (fetchO fetchO' : Option String → Except String (List (String × NodePoint)))
      (diskRef diskRef' : Option MessageRef) (editO editO' : Nat → Bool)
      (now now' : DateTimeUTC) (text : String),
      computeText cfg fetchO now = .ok text →
      computeText cfg fetchO' now' = .ok text →
      (update_cycle cfg st fetchO diskRef editO now).edited = true →
      (update_cycle cfg (update_cycle cfg st fetchO diskRef editO now).state
        fetchO' diskRef' editO' now').edits = []) := by
  refine ⟨fun s => ⟨payload_hash_length s, payload_hash_hex s⟩, ?_, ?_⟩
  · intro cfg st fetchO diskRef editO now text hok hh
    exact update_cycle_edits_nil hok hh
  · intro cfg st fetchO fetchO' diskRef diskRef' editO editO' now now' text
      hok hok' he
    exact update_cycle_edits_nil hok' (update_cycle_edited_hash hok he)

/-- Witness for `change_detector_suppression`: suppression fires on a
concrete cycle whose stored fingerprint matches the rendered text. -/
theorem change_detector_suppression_witness :
    (update_cycle
      { time_range_minutes := 5, latency_warn_ms := none,
        telegram_chat_id := some 1, telegram_message_id := some 2,
        status_title := "T", show_protocol := true, status_template := "",
        domestic_probe_node := none, foreign_probe_node := none,
        include_degraded_as_alert := false }
      { msg_ref := none,
        last_hash := some (payload_hash
          (format_markdown_v2 "T" [] 5 true ⟨2025, 1, 1, 0, 0, 0⟩)) }
      (fun _ => .ok []) none (fun _ => true) ⟨2025, 1, 1, 0, 0, 0⟩).edits = [] :=
  change_detector_suppression.2.1 _ _ _ _ _ _ _ rfl rfl

/-- The retry loop makes at most as many edit calls as attempt numbers. -/
theorem editAttempts_length (editO : Nat → Bool) (r : MessageRef) (text : String) :
    ∀ l : List Nat, (editAttempts editO r text l).2.1.length ≤ l.length := by
  intro l
  induction l with
  | nil => simp [editAttempts]
  | cons a rest ih =>
    simp only [editAttempts]
    split
    · simp
    · split
      · simp
      · simpa using Nat.succ_le_succ ih

/-- The publish phase issues at most three edit calls. -/
theorem publishPhase_edits_le {st : BotState} {r : MessageRef} {text h : String}
    {editO : Nat → Bool} {d : Nat} :
    (publishPhase st r text h editO d).edits.length ≤ 3 := by
  unfold publishPhase
  split
  · simp
  · simpa using editAttempts_length editO r text [1, 2, 3]

/-- The ordered-fallback reference resolution as the (amended) spec words
it: explicit override when both configured values are nonzero, else the
in-memory reference, else the value from durable storage. -/
def specPrecedence (cfg : Config) (st : BotState)
    (diskRef : Option MessageRef) : Option MessageRef :=
  match overrideRef cfg with
  | some r => some r
  | none =>
    match st.msg_ref with
    | some r => some r
    | none => diskRef

/-- The publish phase on a changed text, when the edit fails twice and
succeeds on the third attempt: three calls, sleeps after the first two
failures, fingerprint stored, reference untouched. -/
theorem publishPhase_ffs {st : BotState} {r : MessageRef} {text h : String}
    {editO : Nat → Bool} {d : Nat} (hne : st.last_hash ≠ some h)
    (h1 : editO 1 = false) (h2 : editO 2 = false) (h3 : editO 3 = true) :
    publishPhase st r text h editO d =
      ⟨{ st with last_hash := some h }, [(r, text), (r, text), (r, text)],
        [1, 2], d, [.editWarn, .editWarn, .editOk], true⟩ := by
  simp [publishPhase, editAttempts, hne, h1, h2, h3]

/-- The publish phase on a changed text, when the edit fails on all three
attempts: three calls, two sleeps, an error log, state untouched. -/
theorem publishPhase_fff {st : BotState} {r : MessageRef} {text h : String}
    {editO : Nat → Bool} {d : Nat} (hne : st.last_hash ≠ some h)
    (h1 : editO 1 = false) (h2 : editO 2 = false) (h3 : editO 3 = false) :
    publishPhase st r text h editO d =
      ⟨st, [(r, text), (r, text), (r, text)],
        [1, 2], d, [.editWarn, .editWarn, .editError], false⟩ := by
  simp [publishPhase, editAttempts, hne, h1, h2, h3]

/-- C5 counterexample: with the reference resolved from the configuration
override and empty in-memory state, an edit that fails twice and succeeds
on the third attempt completes the cycle and stores the fingerprint, yet
`CycleState`'s reference remains unset — the claimed "fingerprint and
reference are updated" fails for the reference. -/
theorem publisher_reference_counterexample :
    (update_cycle
      { time_range_minutes := 5, latency_warn_ms := none,
        telegram_chat_id := some 1, telegram_message_id := some 2,
        status_title := "T", show_protocol := true, status_template := "",
        domestic_probe_node := none, foreign_probe_node := none,
        include_degraded_as_alert := false }
      { msg_ref := none, last_hash := none }
      (fun _ => .ok []) none (fun n => n == 3)
      ⟨2025, 1, 1, 0, 0, 0⟩).edited = true ∧
    (update_cycle
      { time_range_minutes := 5, latency_warn_ms := none,
        telegram_chat_id := some 1, telegram_message_id := some 2,
        status_title := "T", show_protocol := true, status_template := "",
        domestic_probe_node := none, foreign_probe_node := none,
        include_degraded_as_alert := false }
      { msg_ref := none, last_hash := none }
      (fun _ => .ok []) none (fun n => n == 3)
      ⟨2025, 1, 1, 0, 0, 0⟩).state.last_hash =
      some (payload_hash (format_markdown_v2 "T" [] 5 true
        ⟨2025, 1, 1, 0, 0, 0⟩)) ∧
    (update_cycle
      { time_range_minutes := 5, latency_warn_ms := none,
        telegram_chat_id := some 1, telegram_message_id := some 2,
        status_title := "T", show_protocol := true, status_template := "",
        domestic_probe_node := none, foreign_probe_node := none,
        include_degraded_as_alert := false }
      { msg_ref := none, last_hash := none }
      (fun _ => .ok []) none (fun n => n == 3)
      ⟨2025, 1, 1, 0, 0, 0⟩).state.msg_ref = none := by
  have key : update_cycle
      { time_range_minutes := 5, latency_warn_ms := none,
        telegram_chat_id := some 1, telegram_message_id := some 2,
        status_title := "T", show_protocol := true, status_template := "",
        domestic_probe_node := none, foreign_probe_node := none,
        include_degraded_as_alert := false }
      { msg_ref := none, last_hash := none }
      (fun _ => .ok []) none (fun n => n == 3) ⟨2025, 1, 1, 0, 0, 0⟩ =
      publishPhase { msg_ref := none, last_hash := none } ⟨1, 2⟩
        (format_markdown_v2 "T" [] 5 true ⟨2025, 1, 1, 0, 0, 0⟩)
        (payload_hash (format_markdown_v2 "T" [] 5 true ⟨2025, 1, 1, 0, 0, 0⟩))
        (fun n => n == 3) 0 := rfl
  rw [key, publishPhase_ffs (by simp) rfl rfl rfl]
  exact ⟨rfl, rfl, rfl⟩

/-- C5 (amended): the edit loop makes at most 3 attempts, sleeping the
attempt index times the fixed base delay between failures.  Whenever a
reference resolves and the text changed, an edit that fails twice and
succeeds on the third attempt yields a successful cycle with the
fingerprint updated; the reference field is not written by the edit loop —
it keeps its pre-publish value (unchanged, or the cached durable-storage
value when memory was empty), so with a configuration override and empty
memory it stays unset even after the successful edit.  An edit that fails
on all three attempts leaves the fingerprint unchanged and logs the error
without raising (the cycle function returns normally). -/
theorem publisher_retry_policy :
    (∀ (cfg : Config) (st : BotState)
      (fetchO : Option String → Except String (List (String × NodePoint)))
      (diskRef : Option MessageRef) (editO : Nat → Bool) (now : DateTimeUTC),
      (update_cycle cfg st fetchO diskRef editO now).edits.length ≤ 3) ∧
    (∀ (cfg : Config) (st : BotState)
      (fetchO : Option String → Except String (List (String × NodePoint)))
      (diskRef : Option MessageRef) (r : MessageRef) (editO : Nat → Bool)
      (now : DateTimeUTC) (text : String),
      computeText cfg fetchO now = .ok text →
      specPrecedence cfg st diskRef = some r →
      st.last_hash ≠ some (payload_hash text) →
      editO 1 = false → editO 2 = false → editO 3 = true →
      (update_cycle cfg st fetchO diskRef editO now).edited = true ∧
      (update_cycle cfg st fetchO diskRef editO now).state.last_hash =
        some (payload_hash text) ∧
      (update_cycle cfg st fetchO diskRef editO now).edits =
        [(r, text), (r, text), (r, text)] ∧
      (update_cycle cfg st fetchO diskRef editO now).sleeps = [1, 2] ∧
      (update_cycle cfg st fetchO diskRef editO now).logs =
        [.editWarn, .editWarn, .editOk] ∧
      ((update_cycle cfg st fetchO diskRef editO now).state.msg_ref =
          st.msg_ref ∨
        (st.msg_ref = none ∧
          (update_cycle cfg st fetchO diskRef editO now).state.msg_ref =
            diskRef))) ∧
    (∀ (cfg : Config) (st : BotState)
      (fetchO : Option String → Except String (List (String × NodePoint)))
      (diskRef : Option MessageRef) (r : MessageRef) (editO : Nat → Bool)
      (now : DateTimeUTC) (text : String),
      computeText cfg fetchO now = .ok text →
      specPrecedence cfg st diskRef = some r →
      st.last_hash ≠ some (payload_hash text) →
      editO 1 = false → editO 2 = false → editO 3 = false →
      (update_cycle cfg st fetchO diskRef editO now).edited = false ∧
      (update_cycle cfg st fetchO diskRef editO now).state.last_hash =
        st.last_hash ∧
      (update_cycle cfg st fetchO diskRef editO now).edits =
        [(r, text), (r, text), (r, text)] ∧
      (update_cycle cfg st fetchO diskRef editO now).sleeps = [1, 2] ∧
      (update_cycle cfg st fetchO diskRef editO now).logs =
        [.editWarn, .editWarn, .editError]) := by
  refine ⟨?_, ?_, ?_⟩
  · intro cfg st fetchO diskRef editO now
    unfold update_cycle
    cases hct : computeText cfg fetchO now with
    | error e => simp
    | ok text =>
      dsimp only
      generalize (match overrideRef cfg with
        | some r => some r
        | none => st.msg_ref) = ref1
      cases ref1 with
      | some r => exact publishPhase_edits_le
      | none =>
        cases diskRef with
        | none => simp
        | some r => exact publishPhase_edits_le
  · intro cfg st fetchO diskRef r editO now text hok hprec hne h1 h2 h3
    unfold update_cycle
    rw [hok]
    dsimp only
    unfold specPrecedence at hprec
    cases ho : overrideRef cfg with
    | some r0 =>
      rw [ho] at hprec
      dsimp only at hprec
      cases hprec
      dsimp only
      rw [publishPhase_ffs hne h1 h2 h3]
      exact ⟨rfl, rfl, rfl, rfl, rfl, Or.inl rfl⟩
    | none =>
      rw [ho] at hprec
      dsimp only at hprec
      cases hm : st.msg_ref with
      | some r0 =>
        rw [hm] at hprec
        dsimp only at hprec
        cases hprec
        dsimp only
        rw [publishPhase_ffs hne h1 h2 h3]
        exact ⟨rfl, rfl, rfl, rfl, rfl, Or.inl hm⟩
      | none =>
        rw [hm] at hprec
        dsimp only at hprec
        cases hprec
        dsimp only
        have hne' : ({ msg_ref := some r, last_hash := st.last_hash } :
            BotState).last_hash ≠ some (payload_hash text) := hne
        rw [publishPhase_ffs hne' h1 h2 h3]
        exact ⟨rfl, rfl, rfl, rfl, rfl, Or.inr ⟨rfl, rfl⟩⟩
  · intro cfg st fetchO diskRef r editO now text hok hprec hne h1 h2 h3
    unfold update_cycle
    rw [hok]
    dsimp only
    unfold specPrecedence at hprec
    cases ho : overrideRef cfg with
    | some r0 =>
      rw [ho] at hprec
      dsimp only at hprec
      cases hprec
      dsimp only
      rw [publishPhase_fff hne h1 h2 h3]
      exact ⟨rfl, rfl, rfl, rfl, rfl⟩
    | none =>
      rw [ho] at hprec
      dsimp only at hprec
      cases hm : st.msg_ref with
      | some r0 =>
        rw [hm] at hprec
        dsimp only at hprec
        cases hprec
        dsimp only
        rw [publishPhase_fff hne h1 h2 h3]
        exact ⟨rfl, rfl, rfl, rfl, rfl⟩
      | none =>
        rw [hm] at hprec
        dsimp only at hprec
        cases hprec
        dsimp only
        have hne' : ({ msg_ref := some r, last_hash := st.last_hash } :
            BotState).last_hash ≠ some (payload_hash text) := hne
        rw [publishPhase_fff hne' h1 h2 h3]
        exact ⟨rfl, rfl, rfl, rfl, rfl⟩

/-- Witness for `publisher_retry_policy`: the fail-fail-succeed scenario at
a concrete memory-resolved reference. -/
theorem publisher_retry_policy_witness :
    (update_cycle
      { time_range_minutes := 5, latency_warn_ms := none,
        telegram_chat_id := none, telegram_message_id := none,
        status_title := "T", show_protocol := true, status_template := "",
        domestic_probe_node := none, foreign_probe_node := none,
        include_degraded_as_alert := false }
      { msg_ref := some ⟨7, 8⟩, last_hash := none }
      (fun _ => .ok []) none (fun n => n == 3)
      ⟨2025, 1, 1, 0, 0, 0⟩).edited = true ∧
    (update_cycle
      { time_range_minutes := 5, latency_warn_ms := none,
        telegram_chat_id := none, telegram_message_id := none,
        status_title := "T", show_protocol := true, status_template := "",
        domestic_probe_node := none, foreign_probe_node := none,
        include_degraded_as_alert := false }
      { msg_ref := some ⟨7, 8⟩, last_hash := none }
      (fun _ => .ok []) none (fun n => n == 3)
      ⟨2025, 1, 1, 0, 0, 0⟩).state.last_hash =
      some (payload_hash (format_markdown_v2 "T" [] 5 true
        ⟨2025, 1, 1, 0, 0, 0⟩)) := by
  have h := publisher_retry_policy.2.1
    { time_range_minutes := 5, latency_warn_ms := none,
      telegram_chat_id := none, telegram_message_id := none,
      status_title := "T", show_protocol := true, status_template := "",
      domestic_probe_node := none, foreign_probe_node := none,
      include_degraded_as_alert := false }
    { msg_ref := some ⟨7, 8⟩, last_hash := none } (fun _ => .ok []) none
    ⟨7, 8⟩ (fun n => n == 3) ⟨2025, 1, 1, 0, 0, 0⟩
    (format_markdown_v2 "T" [] 5 true ⟨2025, 1, 1, 0, 0, 0⟩)
    rfl rfl (by simp) rfl rfl rfl
  exact ⟨h.1, h.2.1⟩

/-- C6 counterexample: an explicitly configured override
`TELEGRAM_CHAT_ID=0, TELEGRAM_MESSAGE_ID=1` is skipped by the Python
truthiness test (`0` is falsy), so the cycle edits the in-memory reference
`(7, 8)` instead of the configured `(0, 1)`. -/
theorem message_ref_precedence_counterexample :
    (update_cycle
      { time_range_minutes := 5, latency_warn_ms := none,
        telegram_chat_id := some 0, telegram_message_id := some 1,
        status_title := "T", show_protocol := true, status_template := "",
        domestic_probe_node := none, foreign_probe_node := none,
        include_degraded_as_alert := false }
      { msg_ref := some ⟨7, 8⟩, last_hash := none }
      (fun _ => .ok []) none (fun _ => true)
      ⟨2025, 1, 1, 0, 0, 0⟩).edits.map Prod.fst = [⟨7, 8⟩] ∧
    (⟨7, 8⟩ : MessageRef) ≠ ⟨0, 1⟩ := by
  constructor
  · rfl
  · intro hc
    cases hc

/-- Every edit call of the retry loop targets the resolved reference. -/
theorem editAttempts_target (editO : Nat → Bool) (r : MessageRef)
    (text : String) :
    ∀ l : List Nat, ∀ p ∈ (editAttempts editO r text l).2.1, p.1 = r := by
  intro l
  induction l with
  | nil => simp [editAttempts]
  | cons a rest ih =>
    intro p hp
    simp only [editAttempts] at hp
    split at hp
    next =>
      rw [List.mem_singleton] at hp
      rw [hp]
    next =>
      split at hp
      next =>
        rw [List.mem_singleton] at hp
        rw [hp]
      next =>
        rw [List.mem_cons] at hp
        rcases hp with hp | hp
        · rw [hp]
        · exact ih p hp

/-- Every edit call of `publishPhase` targets the resolved reference. -/
theorem publishPhase_target {st : BotState} {r : MessageRef} {text h : String}
    {editO : Nat → Bool} {d : Nat} :
    ∀ p ∈ (publishPhase st r text h editO d).edits, p.1 = r := by
  intro p hp
  unfold publishPhase at hp
  split at hp
  · simp at hp
  · exact editAttempts_target editO r text [1, 2, 3] p hp

/-- C6 (amended): the target reference is resolved with the precedence
explicit-configuration-override (when both configured values are present
and nonzero) > in-memory state > durable storage; durable storage is
consulted only when the override is ineffective and memory is empty; and
when nothing resolves the cycle logs guidance and returns without error
and without any edit call, leaving the fingerprint unchanged. -/
theorem message_ref_resolution (cfg : Config) (st : BotState)
    (fetchO : Option String → Except String (List (String × NodePoint)))
    (diskRef : Option MessageRef) (editO : Nat → Bool) (now : DateTimeUTC)
    (text : String) (hok : computeText cfg fetchO now = .ok text) :
    (∀ r, specPrecedence cfg st diskRef = some r →
      ∀ p ∈ (update_cycle cfg st fetchO diskRef editO now).edits, p.1 = r) ∧
    (specPrecedence cfg st diskRef = none →
      (update_cycle cfg st fetchO diskRef editO now).edits = [] ∧
      (update_cycle cfg st fetchO diskRef editO now).logs = [.noTarget] ∧
      (update_cycle cfg st fetchO diskRef editO now).state.last_hash =
        st.last_hash) ∧
    ((update_cycle cfg st fetchO diskRef editO now).diskLoads > 0 →
      overrideRef cfg = none ∧ st.msg_ref = none) := by
  unfold update_cycle
  rw [hok]
  dsimp only
  unfold specPrecedence
  cases ho : overrideRef cfg with
  | some r =>
    dsimp only
    refine ⟨?_, ?_, ?_⟩
    · intro r' hr' p hp
      cases hr'
      exact publishPhase_target p hp
    · intro hnone
      cases hnone
    · intro hd
      have h0 : (publishPhase st r text (payload_hash text) editO 0).diskLoads
          = 0 := by
        unfold publishPhase
        split
        · rfl
        · rfl
      omega
  | none =>
    dsimp only
    cases hm : st.msg_ref with
    | some r =>
      dsimp only
      refine ⟨?_, ?_, ?_⟩
      · intro r' hr' p hp
        cases hr'
        exact publishPhase_target p hp
      · intro hnone
        cases hnone
      · intro hd
        have h0 : (publishPhase st r text (payload_hash text) editO 0).diskLoads
            = 0 := by
          unfold publishPhase
          split
          · rfl
          · rfl
        omega
    | none =>
      dsimp only
      cases diskRef with
      | none =>
        exact ⟨fun r hr => Option.noConfusion hr,
          fun _ => ⟨rfl, rfl, rfl⟩, fun _ => ⟨rfl, rfl⟩⟩
      | some r =>
        dsimp only
        refine ⟨?_, ?_, fun _ => ⟨rfl, rfl⟩⟩
        · intro r' hr' p hp
          cases hr'
          exact publishPhase_target p hp
        · intro hnone
          cases hnone

/-- Witness for `message_ref_resolution`: the nothing-resolves case at
concrete inputs logs guidance and performs no edit. -/
theorem message_ref_resolution_witness :
    (update_cycle
      { time_range_minutes := 5, latency_warn_ms := none,
        telegram_chat_id := none, telegram_message_id := none,
        status_title := "T", show_protocol := true, status_template := "",
        domestic_probe_node := none, foreign_probe_node := none,
        include_degraded_as_alert := false }
      { msg_ref := none, last_hash := none }
      (fun _ => .ok []) none (fun _ => true)
      ⟨2025, 1, 1, 0, 0, 0⟩).edits = [] ∧
    (update_cycle
      { time_range_minutes := 5, latency_warn_ms := none,
        telegram_chat_id := none, telegram_message_id := none,
        status_title := "T", show_protocol := true, status_template := "",
        domestic_probe_node := none, foreign_probe_node := none,
        include_degraded_as_alert := false }
      { msg_ref := none, last_hash := none }
      (fun _ => .ok []) none (fun _ => true)
      ⟨2025, 1, 1, 0, 0, 0⟩).logs = [.noTarget] := by
  have h := (message_ref_resolution
    { time_range_minutes := 5, latency_warn_ms := none,
      telegram_chat_id := none, telegram_message_id := none,
      status_title := "T", show_protocol := true, status_template := "",
      domestic_probe_node := none, foreign_probe_node := none,
      include_degraded_as_alert := false }
    { msg_ref := none, last_hash := none }
    (fun _ => .ok []) none (fun _ => true) ⟨2025, 1, 1, 0, 0, 0⟩
    (format_markdown_v2 "T" [] 5 true ⟨2025, 1, 1, 0, 0, 0⟩) rfl).2.1 rfl
  exact ⟨h.1, h.2.1⟩

/-- The publish phase never touches the in-memory reference. -/
theorem publishPhase_msg_ref {st : BotState} {r : MessageRef} {text h : String}
    {editO : Nat → Bool} {d : Nat} :
    (publishPhase st r text h editO d).state.msg_ref = st.msg_ref := by
  unfold publishPhase
  split
  · rfl
  · rfl

/-- Without a successful edit, `publishPhase` keeps the fingerprint. -/
theorem publishPhase_not_edited_hash {st : BotState} {r : MessageRef}
    {text h : String} {editO : Nat → Bool} {d : Nat}
    (he : (publishPhase st r text h editO d).edited = false) :
    (publishPhase st r text h editO d).state.last_hash = st.last_hash := by
  by_cases hc : st.last_hash = some h
  · simp [publishPhase, hc]
  · simp only [publishPhase, if_neg hc] at he ⊢
    simp [he]

/-- C9 counterexample: a change-suppressed cycle (no edit performed) that
loads the reference from durable storage still mutates `CycleState`: the
in-memory reference goes from `none` to the disk value. -/
theorem cyclestate_mutation_counterexample :
    (update_cycle
      { time_range_minutes := 5, latency_warn_ms := none,
        telegram_chat_id := none, telegram_message_id := none,
        status_title := "T", show_protocol := true, status_template := "",
        domestic_probe_node := none, foreign_probe_node := none,
        include_degraded_as_alert := false }
      { msg_ref := none,
        last_hash := some (payload_hash
          (format_markdown_v2 "T" [] 5 true ⟨2025, 1, 1, 0, 0, 0⟩)) }
      (fun _ => .ok []) (some ⟨7, 8⟩) (fun _ => true)
      ⟨2025, 1, 1, 0, 0, 0⟩).edits = [] ∧
    (update_cycle
      { time_range_minutes := 5, latency_warn_ms := none,
        telegram_chat_id := none, telegram_message_id := none,
        status_title := "T", show_protocol := true, status_template := "",
        domestic_probe_node := none, foreign_probe_node := none,
        include_degraded_as_alert := false }
      { msg_ref := none,
        last_hash := some (payload_hash
          (format_markdown_v2 "T" [] 5 true ⟨2025, 1, 1, 0, 0, 0⟩)) }
      (fun _ => .ok []) (some ⟨7, 8⟩) (fun _ => true)
      ⟨2025, 1, 1, 0, 0, 0⟩).edited = false ∧
    (update_cycle
      { time_range_minutes := 5, latency_warn_ms := none,
        telegram_chat_id := none, telegram_message_id := none,
        status_title := "T", show_protocol := true, status_template := "",
        domestic_probe_node := none, foreign_probe_node := none,
        include_degraded_as_alert := false }
      { msg_ref := none,
        last_hash := some (payload_hash
          (format_markdown_v2 "T" [] 5 true ⟨2025, 1, 1, 0, 0, 0⟩)) }
      (fun _ => .ok []) (some ⟨7, 8⟩) (fun _ => true)
      ⟨2025, 1, 1, 0, 0, 0⟩).state.msg_ref = some ⟨7, 8⟩ := by
  have key : update_cycle
      { time_range_minutes := 5, latency_warn_ms := none,
        telegram_chat_id := none, telegram_message_id := none,
        status_title := "T", show_protocol := true, status_template := "",
        domestic_probe_node := none, foreign_probe_node := none,
        include_degraded_as_alert := false }
      { msg_ref := none,
        last_hash := some (payload_hash
          (format_markdown_v2 "T" [] 5 true ⟨2025, 1, 1, 0, 0, 0⟩)) }
      (fun _ => .ok []) (some ⟨7, 8⟩) (fun _ => true)
      ⟨2025, 1, 1, 0, 0, 0⟩ =
      ⟨{ msg_ref := some ⟨7, 8⟩,
         last_hash := some (payload_hash
           (format_markdown_v2 "T" [] 5 true ⟨2025, 1, 1, 0, 0, 0⟩)) },
        [], [], 1, [.noChange], false⟩ := by
    unfold update_cycle
    rw [show computeText
        { time_range_minutes := 5, latency_warn_ms := none,
          telegram_chat_id := none, telegram_message_id := none,
          status_title := "T", show_protocol := true, status_template := "",
          domestic_probe_node := none, foreign_probe_node := none,
          include_degraded_as_alert := false }
        (fun _ => .ok []) ⟨2025, 1, 1, 0, 0, 0⟩ =
        .ok (format_markdown_v2 "T" [] 5 true ⟨2025, 1, 1, 0, 0, 0⟩) from rfl]
    dsimp only [overrideRef]
    unfold publishPhase
    rw [if_pos rfl]
  rw [key]
  exact ⟨rfl, rfl, rfl⟩

/-- C9 (amended): the fingerprint field of `CycleState` is mutated only by
a successful edit — any cycle without one leaves it unchanged; the
reference field is unchanged except that a cycle which found memory empty
(and no effective override) caches the durable-storage value, regardless
of publish outcome. -/
theorem cyclestate_mutation_policy (cfg : Config) (st : BotState)
    (fetchO : Option String → Except String (List (String × NodePoint)))
    (diskRef : Option MessageRef) (editO : Nat → Bool) (now : DateTimeUTC) :
    ((update_cycle cfg st fetchO diskRef editO now).edited = false →
      (update_cycle cfg st fetchO diskRef editO now).state.last_hash =
        st.last_hash) ∧
    ((update_cycle cfg st fetchO diskRef editO now).state.msg_ref = st.msg_ref ∨
      (st.msg_ref = none ∧ overrideRef cfg = none ∧
        (update_cycle cfg st fetchO diskRef editO now).state.msg_ref = diskRef)) := by
  unfold update_cycle
  cases hct : computeText cfg fetchO now with
  | error e => exact ⟨fun _ => rfl, Or.inl rfl⟩
  | ok text =>
    dsimp only
    cases ho : overrideRef cfg with
    | some r =>
      dsimp only
      exact ⟨publishPhase_not_edited_hash, Or.inl publishPhase_msg_ref⟩
    | none =>
      dsimp only
      cases hm : st.msg_ref with
      | some r =>
        dsimp only
        exact ⟨publishPhase_not_edited_hash,
          Or.inl (publishPhase_msg_ref.trans hm)⟩
      | none =>
        dsimp only
        cases diskRef with
        | none => exact ⟨fun _ => rfl, Or.inr ⟨rfl, rfl, rfl⟩⟩
        | some r =>
          dsimp only
          refine ⟨publishPhase_not_edited_hash, Or.inr ⟨rfl, rfl, ?_⟩⟩
          exact publishPhase_msg_ref

/-- Witness for `cyclestate_mutation_policy`: a failed-query cycle leaves
the fingerprint unchanged. -/
theorem cyclestate_mutation_policy_witness :
    (update_cycle
      { time_range_minutes := 5, latency_warn_ms := none,
        telegram_chat_id := none, telegram_message_id := none,
        status_title := "T", show_protocol := true, status_template := "",
        domestic_probe_node := none, foreign_probe_node := none,
        include_degraded_as_alert := false }
      { msg_ref := none, last_hash := some "x" }
      (fun _ => .error "query failed") none (fun _ => true)
      ⟨2025, 1, 1, 0, 0, 0⟩).state.last_hash = some "x" :=
  (cyclestate_mutation_policy
    { time_range_minutes := 5, latency_warn_ms := none,
      telegram_chat_id := none, telegram_message_id := none,
      status_title := "T", show_protocol := true, status_template := "",
      domestic_probe_node := none, foreign_probe_node := none,
      include_degraded_as_alert := false }
    { msg_ref := none, last_hash := some "x" }
    (fun _ => .error "query failed") none (fun _ => true)
    ⟨2025, 1, 1, 0, 0, 0⟩).1 rfl

/-- The `is_alert` boolean agrees with the propositional description
"down, or — if configured — degraded". -/
theorem alertBool_iff (toggle : Bool) (s : NodeStatus) :
    (!s.up || (toggle && s.degraded)) = true ↔
      (s.up = false ∨ (toggle = true ∧ s.degraded = true)) := by
  cases s.up <;> cases toggle <;> cases s.degraded <;> simp

/-- C7: a node is counted as an alert exactly when it is down or — when
the degraded-counts-as-alert toggle is on — degraded; each board section
lists exactly the alerting node names, sorted case-insensitively, or the
literal `无` ("none") marker when empty; and the board ends with the fixed
interpretive footer sentence. -/
theorem board_alert_semantics :
    (∀ (toggle : Bool) (statuses : List (String × NodeStatus)) (s : NodeStatus),
      s ∈ statuses.map Prod.snd →
      (s.up = false ∨ (toggle = true ∧ s.degraded = true)) →
      s.name ∈ alertsOf toggle statuses) ∧
    (∀ (toggle : Bool) (statuses : List (String × NodeStatus)) (n : String),
      n ∈ alertsOf toggle statuses →
      ∃ s, s ∈ statuses.map Prod.snd ∧ s.name = n ∧
        (s.up = false ∨ (toggle = true ∧ s.degraded = true))) ∧
    boardSection [] = ["无"] ∧
    (∀ alerts : List String, alerts ≠ [] →
      ∃ l, boardSection alerts = l.map (fun n => "❌ " ++ escape_markdown n) ∧
        l.Perm alerts ∧ List.Sorted strLowerLe l) ∧
    (∀ (now : DateTimeUTC) (d f : List String),
      ∃ pre, boardLines now d f =
        pre ++ ["如何解读：只要国内国外其中有一个报警即为节点不可用"] ∧
      format_board_zh now d f = String.intercalate "\n" (boardLines now d f)) := by
  refine ⟨?_, ?_, by rfl, ?_, ?_⟩
  · intro toggle statuses s hs halert
    unfold alertsOf
    exact List.mem_map.mpr ⟨s,
      List.mem_filter.mpr ⟨hs, (alertBool_iff toggle s).mpr halert⟩, rfl⟩
  · intro toggle statuses n hn
    unfold alertsOf at hn
    obtain ⟨s, hsf, rfl⟩ := List.mem_map.mp hn
    obtain ⟨hs, hcond⟩ := List.mem_filter.mp hsf
    exact ⟨s, hs, rfl, (alertBool_iff toggle s).mp hcond⟩
  · intro alerts h
    cases alerts with
    | nil => exact absurd rfl h
    | cons a as =>
      exact ⟨List.insertionSort strLowerLe (a :: as), rfl,
        List.perm_insertionSort strLowerLe (a :: as),
        List.sorted_insertionSort strLowerLe (a :: as)⟩
  · intro now d f
    refine ⟨escape_markdown "监视公告牌" ::
      escape_markdown ("更新日期：" ++ formatCnDatetime now) ::
      "" ::
      escape_markdown "国内当前报警节点如下：" ::
      (boardSection d ++
        ("" ::
          escape_markdown "国外当前报警节点如下：" ::
          boardSection f)), ?_, rfl⟩
    show boardLines now d f = _
    unfold boardLines
    rw [show escape_markdown "如何解读：只要国内国外其中有一个报警即为节点不可用" =
      "如何解读：只要国内国外其中有一个报警即为节点不可用" from rfl]
    simp [List.cons_append, List.append_assoc]

/-- Witness for `board_alert_semantics`: the sorted-section clause on a
concrete nonempty alert list. -/
theorem board_alert_semantics_witness :
    ∃ l, boardSection ["b", "A"] =
      l.map (fun n => "❌ " ++ escape_markdown n) ∧
      l.Perm ["b", "A"] ∧ List.Sorted strLowerLe l := by
  have h := board_alert_semantics.2.2.2.1 ["b", "A"] (by decide)
  exact h

/-! ### Per-node, per-metric characterisation of `fetch_probe_window` -/

/-- The liveness sample a record carries for node `n`, when it does:
its `bool(value)` and timestamp. -/
def aliveExtract (n : String) : ProbeRecord → Option (Bool × Option Nat)
  | .ok name field value t _ =>
    if optStrTruthy name = true ∧ name.getD "" = n ∧ field = "alive" then
      some (pyBool value, t)
    else none
  | .raiseOnAccess _ => none

/-- The latency sample a record carries for node `n`, when it does:
its `int(value)` (or `none` when unparseable) and timestamp. -/
def latencyExtract (n : String) : ProbeRecord → Option (Option Int × Option Nat)
  | .ok name field value t _ =>
    if optStrTruthy name = true ∧ name.getD "" = n ∧ field = "delay_ms" then
      some (pyInt value, t)
    else none
  | .raiseOnAccess _ => none

/-- The stream's liveness samples for node `n`, in stream order. -/
def aliveSamples (n : String) (records : List ProbeRecord) :
    List (Bool × Option Nat) :=
  records.filterMap (aliveExtract n)

/-- The stream's latency samples for node `n`, in stream order. -/
def latencySamples (n : String) (records : List ProbeRecord) :
    List (Option Int × Option Nat) :=
  records.filterMap (latencyExtract n)

/-- The liveness part of the per-node map: value and timestamp. -/
def alivePair (m : Option NodePoint) : Option Bool × Option Nat :=
  match m with
  | none => (none, none)
  | some nd => (nd.alive, nd.alive_time)

/-- The latency part of the per-node map: value and timestamp. -/
def latencyPair (m : Option NodePoint) : Option Int × Option Nat :=
  match m with
  | none => (none, none)
  | some nd => (nd.latency_ms, nd.latency_time)

/-- One retained-sample update step: replace exactly when `shouldReplace`
accepts the incoming timestamp against the stored one. -/
def metricStep {γ : Type} (cur s : γ × Option Nat) : γ × Option Nat :=
  if shouldReplace s.2 cur.2 then s else cur

/-- Pure argmax fold: keep the incoming sample exactly when its timestamp
is strictly greater than the best so far (so the FIRST maximal sample is
retained). -/
def selectFM {δ : Type} (init : δ × Nat) (samples : List (δ × Nat)) : δ × Nat :=
  samples.foldl (fun best s => if s.2 > best.2 then s else best) init

/-- Folding a step function over a stream is simulated, through a view, by
folding a step over the extracted samples. -/
theorem foldl_filterMap_sim {σ α β γ : Type} (step : σ → α → σ)
    (g : α → Option β) (view : σ → γ) (vstep : γ → β → γ)
    (h : ∀ s a, view (step s a) =
      match g a with
      | none => view s
      | some b => vstep (view s) b) :
    ∀ (l : List α) (s : σ),
      view (l.foldl step s) = (l.filterMap g).foldl vstep (view s) := by
  intro l
  induction l with
  | nil => intro s; rfl
  | cons a rest ih =>
    intro s
    rw [List.foldl_cons, ih, h, List.filterMap_cons]
    cases g a
    · rfl
    · rfl

/-- One loop step, seen through the liveness view of node `n`, is the
metric step on the extracted liveness sample. -/
theorem processRecord_alive_sim (n : String) (st : FetchState) (r : ProbeRecord) :
    alivePair ((processRecord st r).result n) =
      match aliveExtract n r with
      | none => alivePair (st.result n)
      | some b => metricStep (alivePair (st.result n)) (some b.1, b.2) := by
  cases r with
  | raiseOnAccess m => rfl
  | ok name field value t protocol =>
    rcases name with _ | s
    · rfl
    · by_cases hs : s = ""
      · subst hs
        rfl
      · have htrue : optStrTruthy (some s) = true := by
          have h0 : s.isEmpty = false := by
            rw [Bool.eq_false_iff]
            intro hc
            exact hs ((String.isEmpty_iff s).mp hc)
          simp [optStrTruthy, h0]
        unfold processRecord aliveExtract
        dsimp only
        rw [if_neg (by simp [htrue] : ¬(optStrTruthy (some s) = false))]
        dsimp only [Option.getD]
        by_cases hns : n = s
        · subst hns
          rw [if_pos rfl]
          by_cases hf : field = "alive"
          · subst hf
            rw [if_pos (show optStrTruthy (some n) = true ∧ n = n ∧
              ("alive" : String) = "alive" from ⟨htrue, rfl, rfl⟩)]
            dsimp only
            cases hres : st.result n with
            | none => simp [alivePair, metricStep, shouldReplace]
            | some nd =>
              by_cases hrep : shouldReplace t nd.alive_time = true
              · simp [alivePair, metricStep, hrep]
              · simp [alivePair, metricStep, hrep]
          · rw [if_neg hf]
            rw [if_neg (show ¬(optStrTruthy (some n) = true ∧ n = n ∧
              field = "alive") from fun hc => hf hc.2.2)]
            dsimp only
            by_cases hd : field = "delay_ms"
            · rw [if_pos hd]
              cases hres : st.result n with
              | none => split <;> simp [alivePair]
              | some nd => split <;> simp [alivePair]
            · rw [if_neg hd]
              cases hres : st.result n with
              | none => simp [alivePair]
              | some nd => simp [alivePair]
        · rw [if_neg hns]
          rw [if_neg (show ¬(optStrTruthy (some s) = true ∧ s = n ∧
            field = "alive") from fun hc => hns hc.2.1.symm)]

/-- One loop step, seen through the latency view of node `n`, is the
metric step on the extracted latency sample. -/
theorem processRecord_latency_sim (n : String) (st : FetchState) (r : ProbeRecord) :
    latencyPair ((processRecord st r).result n) =
      match latencyExtract n r with
      | none => latencyPair (st.result n)
      | some b => metricStep (latencyPair (st.result n)) b := by
  cases r with
  | raiseOnAccess m => rfl
  | ok name field value t protocol =>
    rcases name with _ | s
    · rfl
    · by_cases hs : s = ""
      · subst hs
        rfl
      · have htrue : optStrTruthy (some s) = true := by
          have h0 : s.isEmpty = false := by
            rw [Bool.eq_false_iff]
            intro hc
            exact hs ((String.isEmpty_iff s).mp hc)
          simp [optStrTruthy, h0]
        unfold processRecord latencyExtract
        dsimp only
        rw [if_neg (by simp [htrue] : ¬(optStrTruthy (some s) = false))]
        dsimp only [Option.getD]
        by_cases hns : n = s
        · subst hns
          rw [if_pos rfl]
          by_cases hf : field = "alive"
          · subst hf
            rw [if_neg (show ¬(optStrTruthy (some n) = true ∧ n = n ∧
              ("alive" : String) = "delay_ms") from fun hc =>
                absurd hc.2.2 (by decide))]
            dsimp only
            cases hres : st.result n with
            | none =>
              split
              next => split <;> simp [latencyPair]
              next h => exact absurd rfl h
            | some nd =>
              split
              next => split <;> simp [latencyPair]
              next h => exact absurd rfl h
          · rw [if_neg hf]
            by_cases hd : field = "delay_ms"
            · subst hd
              rw [if_pos (show optStrTruthy (some n) = true ∧ n = n ∧
                ("delay_ms" : String) = "delay_ms" from ⟨htrue, rfl, rfl⟩)]
              dsimp only
              cases hres : st.result n with
              | none => simp [latencyPair, metricStep, shouldReplace]
              | some nd =>
                by_cases hrep : shouldReplace t nd.latency_time = true
                · simp [latencyPair, metricStep, hrep]
                · simp [latencyPair, metricStep, hrep]
            · rw [if_neg hd]
              rw [if_neg (show ¬(optStrTruthy (some n) = true ∧ n = n ∧
                field = "delay_ms") from fun hc => hd hc.2.2)]
              cases hres : st.result n with
              | none => simp [latencyPair]
              | some nd => simp [latencyPair]
        · rw [if_neg hns]
          rw [if_neg (show ¬(optStrTruthy (some s) = true ∧ s = n ∧
            field = "delay_ms") from fun hc => hns hc.2.1.symm)]

/-- The liveness view of the whole reduction is the metric fold over the
node's liveness samples. -/
theorem fetch_alive_fold (records : List ProbeRecord) (n : String) :
    alivePair ((fetch_probe_window records).result n) =
      (aliveSamples n records).foldl
        (fun cur b => metricStep cur (some b.1, b.2)) (none, none) := by
  exact foldl_filterMap_sim processRecord (aliveExtract n)
    (fun st => alivePair (st.result n))
    (fun cur b => metricStep cur (some b.1, b.2))
    (fun st r => by
      have h := processRecord_alive_sim n st r
      cases hx : aliveExtract n r with
      | none => rw [hx] at h; exact h
      | some b => rw [hx] at h; exact h) records emptyFetch

/-- The latency view of the whole reduction is the metric fold over the
node's latency samples. -/
theorem fetch_latency_fold (records : List ProbeRecord) (n : String) :
    latencyPair ((fetch_probe_window records).result n) =
      (latencySamples n records).foldl metricStep (none, none) := by
  exact foldl_filterMap_sim processRecord (latencyExtract n)
    (fun st => latencyPair (st.result n)) metricStep
    (fun st r => by
      have h := processRecord_latency_sim n st r
      cases hx : latencyExtract n r with
      | none => rw [hx] at h; exact h
      | some b => rw [hx] at h; exact h) records emptyFetch

/-- Folding `metricStep` over samples with definite timestamps computes
the pure argmax-first fold `selectFM`. -/
theorem metric_fold_select {δ γ : Type} (j : δ → γ) :
    ∀ (samples : List (δ × Nat)) (b : δ) (t : Nat),
      (samples.map (fun p => ((j p.1 : γ), (some p.2 : Option Nat)))).foldl
        metricStep (j b, some t) =
        (j (selectFM (b, t) samples).1, some (selectFM (b, t) samples).2) := by
  intro samples
  induction samples with
  | nil => intro b t; rfl
  | cons s rest ih =>
    intro b t
    rw [List.map_cons, List.foldl_cons]
    have hms : metricStep ((j b : γ), (some t : Option Nat)) (j s.1, some s.2) =
        (j (if s.2 > t then s else (b, t)).1,
          some (if s.2 > t then s else (b, t)).2) := by
      by_cases h : s.2 > t
      · simp [metricStep, shouldReplace, h]
      · simp [metricStep, shouldReplace, h]
    rw [hms]
    rw [ih (if s.2 > t then s else (b, t)).1 (if s.2 > t then s else (b, t)).2]
    rfl

/-- The fold `selectFM` retains either the initial sample (when nothing beats it)
or the first sample attaining the maximum timestamp: everything before it
is strictly smaller, everything after it is no larger. -/
theorem selectFM_spec {δ : Type} :
    ∀ (samples : List (δ × Nat)) (init : δ × Nat),
      (selectFM init samples = init ∧ ∀ s ∈ samples, s.2 ≤ init.2) ∨
      (∃ pre post, samples = pre ++ selectFM init samples :: post ∧
        init.2 < (selectFM init samples).2 ∧
        (∀ s ∈ pre, s.2 < (selectFM init samples).2) ∧
        (∀ s ∈ post, s.2 ≤ (selectFM init samples).2)) := by
  intro samples
  induction samples with
  | nil => intro init; exact Or.inl ⟨rfl, by simp⟩
  | cons s rest ih =>
    intro init
    have hsel : selectFM init (s :: rest) =
        selectFM (if s.2 > init.2 then s else init) rest := rfl
    by_cases hgt : s.2 > init.2
    · rw [if_pos hgt] at hsel
      rcases ih s with ⟨heq, hall⟩ | ⟨pre, post, hsplit, hlt, hpre, hpost⟩
      · right
        refine ⟨[], rest, ?_, ?_, ?_, ?_⟩
        · rw [hsel, heq]
          rfl
        · rw [hsel, heq]
          exact hgt
        · intro x hx
          exact absurd hx (List.not_mem_nil x)
        · intro x hx
          rw [hsel, heq]
          exact hall x hx
      · right
        refine ⟨s :: pre, post, ?_, ?_, ?_, ?_⟩
        · rw [hsel]
          rw [List.cons_append]
          exact congrArg (s :: ·) hsplit
        · rw [hsel]
          exact lt_trans hgt hlt
        · intro x hx
          rw [hsel]
          rcases List.mem_cons.mp hx with hx | hx
          · rw [hx]
            exact hlt
          · exact hpre x hx
        · intro x hx
          rw [hsel]
          exact hpost x hx
    · rw [if_neg hgt] at hsel
      rcases ih init with ⟨heq, hall⟩ | ⟨pre, post, hsplit, hlt, hpre, hpost⟩
      · left
        refine ⟨hsel.trans heq, ?_⟩
        intro x hx
        rcases List.mem_cons.mp hx with hx | hx
        · rw [hx]
          exact le_of_not_lt hgt
        · exact hall x hx
      · right
        refine ⟨s :: pre, post, ?_, ?_, ?_, ?_⟩
        · rw [hsel]
          rw [List.cons_append]
          exact congrArg (s :: ·) hsplit
        · rw [hsel]
          exact hlt
        · intro x hx
          rw [hsel]
          rcases List.mem_cons.mp hx with hx | hx
          · rw [hx]
            exact lt_of_le_of_lt (le_of_not_lt hgt) hlt
          · exact hpre x hx
        · intro x hx
          rw [hsel]
          exact hpost x hx

/-- The full per-node event one record carries: field, `_value`, timestamp
and protocol label.  A record with any field creates the node's entry, as
in the source. -/
structure NodeEvent where
  field : String
  value : PyValue
  time : Option Nat
  protocol : Option String
deriving DecidableEq, Repr

/-- The per-node event a record carries for node `n`, when it does. -/
def nodeExtract (n : String) : ProbeRecord → Option NodeEvent
  | .ok name field value t protocol =>
    if optStrTruthy name = true ∧ name.getD "" = n then
      some ⟨field, value, t, protocol⟩
    else none
  | .raiseOnAccess _ => none

/-- The stream's events for node `n`, in stream order. -/
def nodeSamples (n : String) (records : List ProbeRecord) : List NodeEvent :=
  records.filterMap (nodeExtract n)

/-- The per-node body of the reduction loop: the lookup-or-create of the
dict entry followed by the field dispatch of `processRecord`. -/
def nodeStep (m : Option NodePoint) (e : NodeEvent) : Option NodePoint :=
  let node0 := m.getD
    { alive := none, latency_ms := none, alive_time := none,
      latency_time := none, protocol := e.protocol }
  some (if e.field = "alive" then
      if shouldReplace e.time node0.alive_time then
        { node0 with
          alive := some (pyBool e.value)
          alive_time := e.time
          protocol := if optStrTruthy e.protocol then e.protocol
            else node0.protocol }
      else node0
    else if e.field = "delay_ms" then
      if shouldReplace e.time node0.latency_time then
        { node0 with
          latency_ms := pyInt e.value
          latency_time := e.time
          protocol := if optStrTruthy e.protocol then e.protocol
            else node0.protocol }
      else node0
    else node0)

/-- One loop step, seen at node `n`, is `nodeStep` on the extracted event:
records for other nodes, unnamed records and raising records leave the
node's entry untouched. -/
theorem processRecord_node_sim (n : String) (st : FetchState) (r : ProbeRecord) :
    (processRecord st r).result n =
      match nodeExtract n r with
      | none => st.result n
      | some e => nodeStep (st.result n) e := by
  cases r with
  | raiseOnAccess m => rfl
  | ok name field value t protocol =>
    rcases name with _ | s
    · rfl
    · by_cases hs : s = ""
      · subst hs
        rfl
      · have htrue : optStrTruthy (some s) = true := by
          have h0 : s.isEmpty = false := by
            rw [Bool.eq_false_iff]
            intro hc
            exact hs ((String.isEmpty_iff s).mp hc)
          simp [optStrTruthy, h0]
        unfold processRecord nodeExtract
        dsimp only
        rw [if_neg (by simp [htrue] : ¬(optStrTruthy (some s) = false))]
        dsimp only [Option.getD]
        by_cases hns : n = s
        · subst hns
          rw [if_pos rfl]
          rw [if_pos (show optStrTruthy (some n) = true ∧ n = n from
            ⟨htrue, rfl⟩)]
          rfl
        · rw [if_neg hns]
          rw [if_neg (show ¬(optStrTruthy (some s) = true ∧ s = n) from
            fun hc => hns hc.2.symm)]

/-- The node's final entry is the `nodeStep` fold over just that node's
events: the reduction groups samples by node name. -/
theorem fetch_node_fold (records : List ProbeRecord) (n : String) :
    (fetch_probe_window records).result n =
      (nodeSamples n records).foldl nodeStep none := by
  exact foldl_filterMap_sim processRecord (nodeExtract n)
    (fun st => st.result n) nodeStep
    (fun st r => by
      have h := processRecord_node_sim n st r
      cases hx : nodeExtract n r with
      | none => rw [hx] at h; exact h
      | some e => rw [hx] at h; exact h) records emptyFetch

/-- The metric fold over a nonempty sample list with definite timestamps
retains the first sample attaining the maximum timestamp. -/
theorem metric_fold_first_max {δ γ : Type} (j : δ → γ) (c0 : γ)
    (samples : List (δ × Nat)) (hne : samples ≠ []) :
    ∃ v t pre post, samples = pre ++ (v, t) :: post ∧
      (samples.map (fun p => ((j p.1 : γ), (some p.2 : Option Nat)))).foldl
        metricStep (c0, none) = (j v, some t) ∧
      (∀ s ∈ pre, s.2 < t) ∧ (∀ s ∈ post, s.2 ≤ t) := by
  obtain ⟨s0, rest, rfl⟩ := List.exists_cons_of_ne_nil hne
  rw [List.map_cons, List.foldl_cons]
  have h0 : metricStep ((c0 : γ), (none : Option Nat)) (j s0.1, some s0.2) =
      (j s0.1, some s0.2) := rfl
  rw [h0, metric_fold_select j rest s0.1 s0.2]
  rcases selectFM_spec rest (s0.1, s0.2) with ⟨heq, hall⟩ |
    ⟨pre, post, hsplit, hlt, hpre, hpost⟩
  · refine ⟨s0.1, s0.2, [], rest, by simp, by rw [heq], by simp, ?_⟩
    intro s hs
    exact hall s hs
  · refine ⟨(selectFM (s0.1, s0.2) rest).1, (selectFM (s0.1, s0.2) rest).2,
      s0 :: pre, post, ?_, rfl, ?_, hpost⟩
    · rw [List.cons_append]
      exact congrArg (s0 :: ·) hsplit
    · intro s hs
      rcases List.mem_cons.mp hs with hs | hs
      · rw [hs]
        exact hlt
      · exact hpre s hs

/-- C2 (amended): `fetch_probe_window` groups samples by node name (the
node's final entry is a fold over exactly that node's events) and,
independently for the liveness and the latency metric, retains the sample
with the maximum timestamp — but timestamp ties are broken by FIRST one
wins (a later-processed sample with an equal timestamp is ignored;
replacement requires a strictly greater timestamp).  The metric parts are
stated for streams whose samples for the node carry definite timestamps:
the retained value and timestamp are those of the first sample attaining
the maximum timestamp (everything before it is strictly older, everything
after it no newer).  The protocol label is updated opportunistically from
whichever sample was most recently retained: a node's first event
initialises the label, a retained sample carrying a non-empty label sets
it, any sample without a non-empty label leaves it unchanged, and a
non-retained sample leaves the node's entry entirely unchanged. -/
theorem fetch_probe_window_latest_by_metric (records : List ProbeRecord)
    (n : String) :
    (∀ samples : List (Bool × Nat),
      aliveSamples n records = samples.map (fun p => (p.1, some p.2)) →
      samples ≠ [] →
      ∃ v t pre post, samples = pre ++ (v, t) :: post ∧
        alivePair ((fetch_probe_window records).result n) = (some v, some t) ∧
        (∀ s ∈ pre, s.2 < t) ∧ (∀ s ∈ post, s.2 ≤ t)) ∧
    (∀ samples : List (Option Int × Nat),
      latencySamples n records = samples.map (fun p => (p.1, some p.2)) →
      samples ≠ [] →
      ∃ v t pre post, samples = pre ++ (v, t) :: post ∧
        latencyPair ((fetch_probe_window records).result n) = (v, some t) ∧
        (∀ s ∈ pre, s.2 < t) ∧ (∀ s ∈ post, s.2 ≤ t)) ∧
    ((fetch_probe_window records).result n =
      (nodeSamples n records).foldl nodeStep none) ∧
    (∀ e : NodeEvent, ∃ nd, nodeStep none e = some nd ∧
      nd.protocol = e.protocol) ∧
    (∀ (nd : NodePoint) (e : NodeEvent), optStrTruthy e.protocol = true →
      ((e.field = "alive" ∧ shouldReplace e.time nd.alive_time = true) ∨
       (e.field = "delay_ms" ∧ shouldReplace e.time nd.latency_time = true)) →
      ∃ nd', nodeStep (some nd) e = some nd' ∧ nd'.protocol = e.protocol) ∧
    (∀ (nd : NodePoint) (e : NodeEvent), optStrTruthy e.protocol = false →
      ∃ nd', nodeStep (some nd) e = some nd' ∧ nd'.protocol = nd.protocol) ∧
    (∀ (nd : NodePoint) (e : NodeEvent),
      (e.field = "alive" → shouldReplace e.time nd.alive_time = false →
        nodeStep (some nd) e = some nd) ∧
      (e.field = "delay_ms" → shouldReplace e.time nd.latency_time = false →
        nodeStep (some nd) e = some nd)) := by
  refine ⟨?_, ?_, fetch_node_fold records n, ?_, ?_, ?_, ?_⟩
  · intro samples hsam hne
    obtain ⟨v, t, pre, post, hsp, hfold, hpre, hpost⟩ :=
      metric_fold_first_max (Option.some : Bool → Option Bool)
        (none : Option Bool) samples hne
    refine ⟨v, t, pre, post, hsp, ?_, hpre, hpost⟩
    rw [fetch_alive_fold, hsam]
    rw [List.foldl_map]
    rw [List.foldl_map] at hfold
    exact hfold
  · intro samples hsam hne
    obtain ⟨v, t, pre, post, hsp, hfold, hpre, hpost⟩ :=
      metric_fold_first_max (id : Option Int → Option Int)
        (none : Option Int) samples hne
    refine ⟨v, t, pre, post, hsp, ?_, hpre, hpost⟩
    rw [fetch_latency_fold, hsam]
    rw [List.foldl_map]
    rw [List.foldl_map] at hfold
    exact hfold
  · intro e
    refine ⟨_, rfl, ?_⟩
    split_ifs <;> rfl
  · intro nd e htr hcase
    rcases hcase with ⟨hf, hrep⟩ | ⟨hf, hrep⟩
    · have key : nodeStep (some nd) e = some
          { nd with
            alive := some (pyBool e.value)
            alive_time := e.time
            protocol := e.protocol } := by
        unfold nodeStep
        dsimp only [Option.getD]
        rw [if_pos hf, if_pos hrep, if_pos htr]
      exact ⟨_, key, rfl⟩
    · have hfa : ¬(e.field = "alive") := by
        rw [hf]
        decide
      have key : nodeStep (some nd) e = some
          { nd with
            latency_ms := pyInt e.value
            latency_time := e.time
            protocol := e.protocol } := by
        unfold nodeStep
        dsimp only [Option.getD]
        rw [if_neg hfa, if_pos hf, if_pos hrep, if_pos htr]
      exact ⟨_, key, rfl⟩
  · intro nd e hfalse
    refine ⟨_, rfl, ?_⟩
    split_ifs <;> simp_all
  · intro nd e
    constructor
    · intro hf hrep
      unfold nodeStep
      dsimp only [Option.getD]
      rw [if_pos hf, if_neg (by simp [hrep] :
        ¬(shouldReplace e.time nd.alive_time = true))]
    · intro hd hrep
      have hfa : ¬(e.field = "alive") := by
        rw [hd]
        decide
      unfold nodeStep
      dsimp only [Option.getD]
      rw [if_neg hfa, if_pos hd, if_neg (by simp [hrep] :
        ¬(shouldReplace e.time nd.latency_time = true))]

/-- Witness for `fetch_probe_window_latest_by_metric`: on the tie-break
stream of the counterexample, the retained liveness sample is the first
of the two equal-timestamp samples. -/
theorem fetch_probe_window_latest_by_metric_witness :
    ∃ v t pre post,
      ([((true : Bool), (5 : Nat)), (false, 5)] : List (Bool × Nat)) =
        pre ++ (v, t) :: post ∧
      alivePair ((fetch_probe_window
        [.ok (some "A") "alive" (.vbool true) (some 5) none,
         .ok (some "A") "alive" (.vbool false) (some 5) none]).result "A") =
        (some v, some t) ∧
      (∀ s ∈ pre, s.2 < t) ∧ (∀ s ∈ post, s.2 ≤ t) :=
  (fetch_probe_window_latest_by_metric
    [.ok (some "A") "alive" (.vbool true) (some 5) none,
     .ok (some "A") "alive" (.vbool false) (some 5) none] "A").1
    [(true, 5), (false, 5)] (by rfl) (by simp)

end ClashProbe
